import Mathlib

/-!
A verification development for the MIPSEmulator repository (Go sources).

The Go code is shallowly embedded: 32-bit unsigned machine words (`uint32`)
become `Nat` with explicit `% 2^32` wherever Go arithmetic can wrap, Go `int32`
views become `Int` via an explicit two's-complement conversion, Go slices
become `Array Nat` with `Option`-valued indexing (a `none` result models the
Go runtime panic on an out-of-range index), and the Go map `SystemMemory`
becomes a function `Nat → Option MemoryPage` keyed by `addr >>> 12`.

Error records (`RuntimeError`) are modelled by their `EType` code alone; the
formatted `Message` string carries no information used by any property below.

Go slice aliasing: in the Go source the cached `MemoryPage` values share their
`memory`/`initialized` backing arrays with the entry of the page table they
were loaded from, so a write performed through a cache hit is also visible in
the page table (spec section 4.1, invariant (b)).  The embedding models pages
by value, so a write that lands in a cache also stores the updated page back
into the page table at the same key, which reproduces the observable aliasing
semantics.
-/

/-! ## Error codes (emulator.go, const block) -/

def eUninitializedMemoryAccess : Nat := 0

def eUninitializedRegisterAccess : Nat := 1

def eRuntimeLimitExceeded : Nat := 2

def eInvalidInstruction : Nat := 3

def eIllegalRegisterWrite : Nat := 4

def eErrorLimitReached : Nat := 5

def eShiftOverflow : Nat := 6

def eHiLoUninitializedAccess : Nat := 7

def eSoftwareInterruptParameter : Nat := 8

def eInvalidSoftwareInterrupt : Nat := 9

def eSoftwareInterruptParameterValue : Nat := 10

def eNoAnswerReported : Nat := 11

/-! ## Data model (emulator.go) -/

/-- `MemoryPage` from emulator.go: a 4KB page.  `memory` holds 1024 words and
`initialized` 32 words of per-word init bits; the arrays of a well-formed page
have exactly these sizes, but the zero value of the struct (as used for the
caches of a fresh `instance`) has empty arrays. -/
structure MemoryPage where
  startAddr : Nat
  memory : Array Nat
  initialized : Array Nat
deriving Repr

/-- `SystemMemory` from emulator.go: a map from the upper 20 address bits to a
page. -/
def SystemMemory : Type := Nat → Option MemoryPage

/-- The two's-complement reading of a 32-bit word (Go `int32(x)` for a
`uint32` value `x`). -/
def toInt32 (x : Nat) : Int :=
  if x < 2 ^ 31 then (x : Int) else (x : Int) - 2 ^ 32

/-- Go conversion `uint32(i)` of a (possibly negative) integer: reduction
modulo `2^32` into `[0, 2^32)`. -/
def ofInt32 (i : Int) : Nat :=
  (i % (2 ^ 32 : Int)).toNat

/-! ## Scenario contexts (project1.go, eula.go) -/

/-- `p1Rot` from project1.go. -/
inductive P1Rot where
  | sol0 | sol90 | sol180 | sol270
deriving DecidableEq, Repr

/-- `Project1` from project1.go (the rotation-puzzle context, swi 582/583). -/
structure Project1 where
  reference : Nat
  candidates : Array Nat
  solutionOffset : Nat
  solutionRotation : P1Rot
  solutionFlipped : Bool
  reportedOffset : Nat
deriving Repr

/-- `p1Obscurity` from eula.go. -/
inductive P1Obscurity where
  | none | horz | vert | both
deriving DecidableEq, Repr

/-- `p1Spacing` from eula.go. -/
inductive P1Spacing where
  | none | horz | vert | both
deriving DecidableEq, Repr

/-- `p1Geometry` from eula.go. -/
inductive P1Geometry where
  | none | l | t
deriving DecidableEq, Repr

/-- `Project1Fa21` from eula.go (the bounding-box context, swi 598/599).
The Go `int` coordinate values (`vLines`, `hLines`, `tlx`, `tly`) are kept as
`Nat`: every value the generator stores in them is nonnegative (`tlx`/`tly`
are `rand.Intn(..) + 1` and line offsets are `desired - tl` with
`desired ≥ tl`). -/
structure Project1Fa21 where
  targetColor : Nat
  solution : Nat
  reportedAnswer : Nat
  obscurity : P1Obscurity
  spacing : P1Spacing
  geometry : P1Geometry
  horzLineCount : Nat
  vertLineCount : Nat
  pile : Array Nat
  horzAllocs : Nat
  vertAllocs : Nat
  vLines : List Nat
  hLines : List Nat
  tlx : Nat
  tly : Nat
deriving Repr

/-- The dynamically typed `swiContext interface{}` of the Go `instance`,
modelled as a tagged union (nil, `*Project1`, or `*Project1Fa21`). -/
inductive SWIContext where
  | nilCtx
  | p1 (p : Project1)
  | p1fa21 (p : Project1Fa21)
deriving Repr

/-- The process-wide `math/rand` stream made explicit: `f` maps the draw
index to the drawn raw value, and `idx` counts the draws made so far.  Each
`rand.Intn(n)` call consumes `f idx % n`.  `rand.Seed` calls, which in Go
reseed from the wall clock, are not observable through any property below
and leave the stream unchanged. -/
structure Rng where
  f : Nat → Nat
  idx : Nat

/-- One draw of `rand.Intn n`. -/
def Rng.intn (r : Rng) (n : Nat) : Nat × Rng :=
  (r.f r.idx % n, { r with idx := r.idx + 1 })

/-- The Go `instance` struct from emulator.go.  `regs` is the register file
indexed by register number, `regInit` its initialization bitmask, `errors`
the ordered list of reported error codes, and `rng` the explicit state of
the process-wide `math/rand` stream. -/
structure EmuInstance where
  memory : SystemMemory
  pc : Nat
  regs : Nat → Nat
  regInit : Nat
  hiLoFilled : Bool
  hi : Nat
  lo : Nat
  iCache : MemoryPage
  dCache : MemoryPage
  dMissed : Bool
  di : Nat
  runtimeLimit : Nat
  swiContext : SWIContext
  errors : List Nat
  rng : Rng

/-- `reportError` from emulator.go; only the error code is tracked (the
formatted message is not modelled). -/
def reportError (inst : EmuInstance) (eType : Nat) : EmuInstance :=
  { inst with errors := inst.errors ++ [eType] }

/-- One draw of `rand.Intn n` performed while emulating: the drawn value and
the instance with the advanced stream. -/
def randIntn (inst : EmuInstance) (n : Nat) : Nat × EmuInstance :=
  let (v, r) := inst.rng.intn n
  (v, { inst with rng := r })

/-! ## Memory access (emulator.go, `memAccess` / `memWrite`) -/

/-- `(*instance).memAccess` from emulator.go.  Returns the `(value, ok)` pair
together with the possibly updated instance; `none` models a Go panic from
indexing an out-of-range position of a cache or page array. -/
def memAccess (inst : EmuInstance) (addr : Nat) (isInstr : Bool) :
    Option ((Nat × Bool) × EmuInstance) :=
  if addr >>> 12 = inst.iCache.startAddr >>> 12 then
    match inst.iCache.initialized[(addr % 4096) / 128]? with
    | none => none
    | some iw =>
      if (iw >>> ((addr % 4096) / 4 % 32)) &&& 1 ≠ 1 then
        some ((0, false), reportError inst eUninitializedMemoryAccess)
      else
        match inst.iCache.memory[addr / 4 % 1024]? with
        | none => none
        | some v => some ((v, true), inst)
  else if addr >>> 12 = inst.dCache.startAddr >>> 12 then
    match inst.dCache.initialized[(addr % 4096) / 128]? with
    | none => none
    | some iw =>
      if (iw >>> ((addr % 4096) / 4 % 32)) &&& 1 ≠ 1 then
        some ((0, false), reportError inst eUninitializedMemoryAccess)
      else
        match inst.dCache.memory[addr / 4 % 1024]? with
        | none => none
        | some v => some ((v, true), { inst with dMissed := false })
  else
    match inst.memory (addr >>> 12) with
    | none => some ((0, false), reportError inst eUninitializedMemoryAccess)
    | some page =>
      match page.initialized[(addr % 4096) / 128]? with
      | none => none
      | some iw =>
        if (iw >>> ((addr % 4096) / 4 % 32)) &&& 1 ≠ 1 then
          some ((0, false), reportError inst eUninitializedMemoryAccess)
        else
          match page.memory[addr / 4 % 1024]? with
          | none => none
          | some v =>
            if isInstr then some ((v, true), { inst with iCache := page })
            else if inst.dMissed = true then
              some ((v, true), { inst with dCache := page })
            else
              some ((v, true), { inst with dMissed := true })

/-- Store an updated page back into the page table at key `k` when an entry is
present there (the observable effect, through Go slice aliasing, of mutating a
cached page whose arrays are shared with the page table entry). -/
def storeAliased (m : SystemMemory) (k : Nat) (p : MemoryPage) : SystemMemory :=
  fun q => if q = k then (m k).map (fun _ => p) else m q

/-- The word update performed by `memWrite`:
`(data & mask) | (old & (mask ^ 0xFFFFFFFF))`. -/
def maskedWord (data mask old : Nat) : Nat :=
  (data &&& mask) ||| (old &&& (mask ^^^ 0xFFFFFFFF))

/-- `(*instance).memWrite` from emulator.go.  `none` models a Go panic from an
out-of-range array index.  A write hitting a cache also stores the updated
page at the same page-table key (Go slice aliasing, see the file comment). -/
def memWrite (inst : EmuInstance) (addr data mask : Nat) : Option EmuInstance :=
  if addr >>> 12 = inst.iCache.startAddr >>> 12 then
    match inst.iCache.memory[addr / 4 % 1024]?,
          inst.iCache.initialized[(addr % 4096) / 128]? with
    | some old, some iw =>
      let p : MemoryPage :=
        { inst.iCache with
          memory := inst.iCache.memory.setD (addr / 4 % 1024) (maskedWord data mask old),
          initialized := inst.iCache.initialized.setD ((addr % 4096) / 128)
            (iw ||| (1 <<< ((addr % 4096) / 4 % 32))) }
      some { inst with iCache := p, memory := storeAliased inst.memory (addr >>> 12) p }
    | _, _ => none
  else if addr >>> 12 = inst.dCache.startAddr >>> 12 then
    match inst.dCache.memory[addr / 4 % 1024]?,
          inst.dCache.initialized[(addr % 4096) / 128]? with
    | some old, some iw =>
      let p : MemoryPage :=
        { inst.dCache with
          memory := inst.dCache.memory.setD (addr / 4 % 1024) (maskedWord data mask old),
          initialized := inst.dCache.initialized.setD ((addr % 4096) / 128)
            (iw ||| (1 <<< ((addr % 4096) / 4 % 32))) }
      some { inst with dCache := p, dMissed := false,
                       memory := storeAliased inst.memory (addr >>> 12) p }
    | _, _ => none
  else
    let page : MemoryPage :=
      match inst.memory (addr >>> 12) with
      | none =>
        { startAddr := addr &&& 0xFFFFF000,
          memory := Array.mkArray 1024 0,
          initialized := Array.mkArray 32 0 }
      | some pg => pg
    match page.memory[addr / 4 % 1024]?, page.initialized[(addr % 4096) / 128]? with
    | some old, some iw =>
      let p : MemoryPage :=
        { page with
          memory := page.memory.setD (addr / 4 % 1024) (maskedWord data mask old),
          initialized := page.initialized.setD ((addr % 4096) / 128)
            (iw ||| (1 <<< ((addr % 4096) / 4 % 32))) }
      some { inst with memory := fun q => if q = addr >>> 12 then some p else inst.memory q }
    | _, _ => none

/-- `(*instance).regInitialized` from emulator.go. -/
def regInitialized (inst : EmuInstance) (reg : Nat) : Bool :=
  (inst.regInit >>> reg) &&& 1 = 1

/-- `(*instance).regAccess` from emulator.go: the read value together with the
instance (which gains an error when the register is uninitialized). -/
def regAccess (inst : EmuInstance) (reg : Nat) : Nat × EmuInstance :=
  if (inst.regInit >>> reg) &&& 1 ≠ 1 then
    (0, reportError inst eUninitializedRegisterAccess)
  else
    (inst.regs reg, inst)

/-- `(*instance).regWrite` from emulator.go. -/
def regWrite (inst : EmuInstance) (reg : Nat) (data : Nat) : EmuInstance :=
  if reg = 0 then
    reportError inst eIllegalRegisterWrite
  else
    { inst with regInit := inst.regInit ||| (1 <<< reg),
                regs := fun r => if r = reg then data else inst.regs r }

/-! ## Instruction codec (instructions.go) -/

def opADDI : Nat := 0x8

def opADDIU : Nat := 0x9

def opANDI : Nat := 0xC

def opBEQ : Nat := 0x4

def opBNE : Nat := 0x5

def opJ : Nat := 0x2

def opJAL : Nat := 0x3

def opLB : Nat := 0x20

def opLBU : Nat := 0x24

def opLUI : Nat := 0xF

def opLW : Nat := 0x23

def opORI : Nat := 0xD

def opSB : Nat := 0x28

def opSLTI : Nat := 0xA

def opSLTIU : Nat := 0xB

def opSW : Nat := 0x2B

def opSWI : Nat := 0x2F

def fnADD : Nat := 0x20

def fnADDU : Nat := 0x21

def fnAND : Nat := 0x24

def fnDIV : Nat := 0x1A

def fnDIVU : Nat := 0x1B

def fnJR : Nat := 0x08

def fnMFHI : Nat := 0x10

def fnMFLO : Nat := 0x12

def fnMULT : Nat := 0x18

def fnMULTU : Nat := 0x19

def fnXOR : Nat := 0x26

def fnOR : Nat := 0x25

def fnSLT : Nat := 0x2A

def fnSLTU : Nat := 0x2B

def fnSLL : Nat := 0x00

def fnSRL : Nat := 0x02

def fnSRA : Nat := 0x03

def fnSLLV : Nat := 0x04

def fnSRLV : Nat := 0x05

def fnSRAV : Nat := 0x06

def fnSUB : Nat := 0x22

def fnSUBU : Nat := 0x23

/-- `formRInstruction` from instructions.go.  Each Go `uint32(...)` conversion
and the 32-bit shift result are reduced modulo `2^32`. -/
def formRInstruction (opCode rs rt rd shift funct : Nat) : Nat :=
  (((opCode % 2 ^ 32) <<< 26) % 2 ^ 32) ||| ((rs <<< 21) % 2 ^ 32) |||
    ((rt <<< 16) % 2 ^ 32) ||| ((rd <<< 11) % 2 ^ 32) |||
    ((shift <<< 6) % 2 ^ 32) ||| (funct % 2 ^ 32)

/-- `formIInstruction` from instructions.go. -/
def formIInstruction (opCode rs rt : Nat) (imm : Nat) : Nat :=
  (((opCode % 2 ^ 32) <<< 26) % 2 ^ 32) ||| ((rs <<< 21) % 2 ^ 32) |||
    ((rt <<< 16) % 2 ^ 32) ||| (imm &&& 0xFFFF)

/-- `formJInstruction` from instructions.go. -/
def formJInstruction (opCode : Nat) (addr : Nat) : Nat :=
  (((opCode % 2 ^ 32) <<< 26) % 2 ^ 32) ||| addr

/-- The six components returned by `decodeInstruction` from instructions.go. -/
structure DecodedInstr where
  op : Nat
  x : Nat
  y : Nat
  z : Nat
  imm : Nat
  fn : Nat
deriving DecidableEq, Repr

/-- `decodeInstruction` from instructions.go.  Components not assigned by the
Go function keep their zero value. -/
def decodeInstruction (instr : Nat) : DecodedInstr :=
  let op := instr >>> 26
  if op = 0 then
    { op := op,
      x := (instr >>> 21) &&& 0x1F,
      y := (instr >>> 16) &&& 0x1F,
      z := (instr >>> 11) &&& 0x1F,
      imm := (instr >>> 6) &&& 0x1F,
      fn := instr &&& 0x3F }
  else if op = opJ ∨ op = opJAL then
    { op := op, x := 0, y := 0, z := 0, imm := instr &&& 0x03FFFFFF, fn := 0 }
  else
    { op := op,
      x := (instr >>> 16) &&& 0x1F,
      y := 0,
      z := (instr >>> 21) &&& 0x1F,
      imm := instr &&& 0xFFFF,
      fn := 0 }

/-- Re-encoding of a decoded word with the `form*` function matching its
shape: `formRInstruction` when the opcode is 0, `formJInstruction` for `J`
and `JAL`, and otherwise `formIInstruction` (whose `rs` argument is the
decoded `z` and whose `rt` argument is the decoded `x`, exactly as
`assembleText` passes them). -/
def reencodeInstruction (instr : Nat) : Nat :=
  let d := decodeInstruction instr
  if d.op = 0 then formRInstruction d.op d.x d.y d.z d.imm d.fn
  else if d.op = opJ ∨ d.op = opJAL then formJInstruction d.op d.imm
  else formIInstruction d.op d.z d.x d.imm

/-! ## Project 1 rotation puzzle (project1.go, `Project1` version) -/

/-- The acceptance loop inside `(*Project1).genSquare` from project1.go: for
`i` from the given index up to 7 the candidate is rejected (`false`) as soon
as `t & (3 << (2i % 16))` equals `(t & (3 << ((2i+2) % 16))) >> 2`, and
accepted (`true`) when `i` reaches 7 without a rejection.  The last argument
is structural fuel for the loop; 8 always suffices (the body increments `i`
and stops at 8). -/
def genSquareCheckLoop (t : Nat) : Nat → Nat → Bool
  | _, 0 => false
  | i, rem + 1 =>
    if 8 > i then
      let t1 := (3 <<< ((i * 2) % 16)) % 2 ^ 32
      let t2 := t &&& t1
      let t3 := (3 <<< ((i * 2 + 2) % 16)) % 2 ^ 32
      let t4 := (t &&& t3) >>> 2
      if t2 = t4 then false
      else if i = 7 then true
      else genSquareCheckLoop t (i + 1) rem
    else false

/-- `(*Project1).genSquare` from project1.go: draw `rand.Intn(65536)` until a
sample passes the acceptance loop.  The rejection sampling is given explicit
fuel; `none` models the (probability-zero for a fair stream, but possible for
an adversarial one) case that no acceptable sample is drawn in `fuel` draws. -/
def genSquare (inst : EmuInstance) (fuel : Nat) : Option (Nat × EmuInstance) :=
  match fuel with
  | 0 => none
  | fuel + 1 =>
    let (t, inst1) := randIntn inst 65536
    if genSquareCheckLoop t 0 8 then some (t, inst1) else genSquare inst1 fuel

/-- The 2-bit cell `i` of a packed square (cell `i` sits at bit position
`2*i`, as in the spec's rotation-puzzle packing). -/
def squareCell (t i : Nat) : Nat :=
  (t >>> (i * 2)) &&& 3

/-- One of the two four-step rotate-and-compare loops of
`(*Project1).testSolution` from project1.go, returning both whether a match
was found and the square as left by the loop. -/
def rotCheckLoop (reference square : Nat) : Nat → Bool × Nat
  | 0 => (false, square)
  | n + 1 =>
    let square := (square >>> 4) ||| ((square &&& 0xF) <<< 12)
    if square = reference then (true, square) else rotCheckLoop reference square n

/-- The flip operation appearing in `(*Project1).testSolution` and
`(*Project1).genSolution` from project1.go: cells are unpacked into `buf` and
re-packed most-significant-first with index `(i+1) % 8`. -/
def flipSquare (square : Nat) : Nat :=
  let buf : Nat → Nat := fun i => (square >>> (i * 2)) &&& 0x3
  (List.range 8).foldl (fun acc i => ((acc <<< 2) % 2 ^ 32) ||| buf ((i + 1) % 8)) 0

/-- `(*Project1).testSolution` from project1.go. -/
def testSolution (p : Project1) (square : Nat) : Bool :=
  let r1 := rotCheckLoop p.reference square 4
  if r1.1 then true
  else
    let square := flipSquare r1.2
    (rotCheckLoop p.reference square 4).1

/-- `(*Project1).genSolution` from project1.go.  Draws offset, flip and
rotation, applies flip then rotation to the reference, and stores the result
into the candidate slot `solutionOffset / 4`. -/
def genSolution (p : Project1) (inst : EmuInstance) : Project1 × EmuInstance :=
  let (o, inst1) := randIntn inst 8
  let (f, inst2) := randIntn inst1 2
  let (r, inst3) := randIntn inst2 4
  let p := { p with solutionOffset := 4 * o, solutionFlipped := f = 0,
                    solutionRotation :=
                      if r = 1 then P1Rot.sol90
                      else if r = 2 then P1Rot.sol180
                      else if r = 3 then P1Rot.sol270
                      else P1Rot.sol0 }
  let sol := p.reference
  let sol := if p.solutionFlipped then flipSquare sol else sol
  let sol :=
    match p.solutionRotation with
    | P1Rot.sol90 => (sol >>> 4) ||| ((sol &&& 0xF) <<< 12)
    | P1Rot.sol180 => (sol >>> 8) ||| ((sol &&& 0xFF) <<< 8)
    | P1Rot.sol270 => (sol >>> 12) ||| ((sol &&& 0xFFF) <<< 4)
    | P1Rot.sol0 => sol
  ({ p with candidates := p.candidates.setD (p.solutionOffset / 4) sol }, inst3)

/-- The inner rejection-sampling loop of `(*instance).swi582` that produces
the distractor for slot `i` (drawn squares that are a rotation/flip of the
reference are rejected; the Go watchdog only reseeds the wall-clock RNG and
is not separately modelled). -/
def swi582Dummy (p : Project1) (a : Nat) (i : Nat) (inst : EmuInstance) :
    Nat → Option (Project1 × EmuInstance)
  | 0 => none
  | fuel + 1 =>
    match genSquare inst (fuel + 1) with
    | none => none
    | some (t, inst1) =>
      if ¬ testSolution p t then
        let p := { p with candidates := p.candidates.setD i t }
        match memWrite inst1 ((a + i * 4 + 4) % 2 ^ 32) t 0xFFFFFFFF with
        | none => none
        | some inst2 => some (p, inst2)
      else
        swi582Dummy p a i inst1 fuel

/-- `(*instance).swi582` from project1.go (the `Project1` version): generate
the reference and the solution, write both into guest memory at the address
held (without an initialization check) in register 1, fill the remaining
slots with distractors, and attach the scenario context. -/
def swi582 (inst : EmuInstance) (fuel : Nat) : Option EmuInstance :=
  let inst := if ¬ regInitialized inst 1 then reportError inst eSoftwareInterruptParameter
              else inst
  let p : Project1 :=
    { reference := 0, candidates := Array.mkArray 8 0, solutionOffset := 0,
      solutionRotation := P1Rot.sol0, solutionFlipped := false, reportedOffset := 0 }
  match genSquare inst fuel with
  | none => none
  | some (r, inst1) =>
    let p := { p with reference := r }
    let (p, inst2) := genSolution p inst1
    let p := { p with reportedOffset := 0x12345678 }
    let a := inst2.regs 1
    match memWrite inst2 a p.reference 0xFFFFFFFF with
    | none => none
    | some inst3 =>
      match memWrite inst3 ((a + 4 + p.solutionOffset) % 2 ^ 32)
              (p.candidates.getD (p.solutionOffset / 4) 0) 0xFFFFFFFF with
      | none => none
      | some inst4 =>
        match (List.range 8).foldlM
            (fun (st : Project1 × EmuInstance) i =>
              if st.1.solutionOffset / 4 = i then some st
              else swi582Dummy st.1 a i st.2 fuel)
            (p, inst4) with
        | none => none
        | some (p, inst5) => some { inst5 with swiContext := SWIContext.p1 p }

/-- `(*instance).swi583` from project1.go (the `Project1` version): grade the
offset reported in register 3 and expose the true solution offset in
register 6. -/
def swi583 (inst : EmuInstance) : EmuInstance :=
  match inst.swiContext with
  | SWIContext.p1 p =>
    let inst := if ¬ regInitialized inst 1 then reportError inst eSoftwareInterruptParameter
                else inst
    let (v, inst1) := regAccess inst 3
    let p := { p with reportedOffset := v }
    let inst1 := { inst1 with swiContext := SWIContext.p1 p }
    if p.reportedOffset > 28 ∨ p.reportedOffset % 4 ≠ 0 then
      reportError inst1 eSoftwareInterruptParameterValue
    else
      regWrite inst1 6 p.solutionOffset
  | _ => reportError inst eInvalidSoftwareInterrupt

/-! ## Project 1 Fa21 bounding box (eula.go) -/

/-- `(*Project1Fa21).plotPoint` from eula.go; `none` models the Go panic on an
out-of-range pile index. -/
def plotPoint (p : Project1Fa21) (x y color : Nat) : Option Project1Fa21 :=
  match p.pile[y * 16 + x / 4]? with
  | none => none
  | some w =>
    let w := w &&& (((0xFF <<< (x % 4 * 8)) % 2 ^ 32) ^^^ 0xFFFFFFFF)
    let w := w ||| (((color % 2 ^ 32) <<< (x % 4 * 8)) % 2 ^ 32)
    some { p with pile := p.pile.setD (y * 16 + x / 4) w }

/-- `(*Project1Fa21).getPoint` from eula.go. -/
def getPoint (p : Project1Fa21) (x y : Nat) : Option Nat :=
  (p.pile[y * 16 + x / 4]?).map (fun w => (w >>> (x % 4 * 8)) &&& 0xFF)

/-- `(*Project1Fa21).drawHLine` from eula.go: plot `(x, y)` for
`x = x1 .. x2`. -/
def drawHLine (p : Project1Fa21) (x1 x2 y color : Nat) : Option Project1Fa21 :=
  (List.range (x2 + 1 - x1)).foldlM (fun p i => plotPoint p (x1 + i) y color) p

/-- `(*Project1Fa21).drawVLine` from eula.go. -/
def drawVLine (p : Project1Fa21) (x y1 y2 color : Nat) : Option Project1Fa21 :=
  (List.range (y2 + 1 - y1)).foldlM (fun p i => plotPoint p x (y1 + i) color) p

/-- `(*Project1Fa21).checkHAlloc` from eula.go (`horzAllocs` is a Go
`uint64`). -/
def checkHAlloc (p : Project1Fa21) (y : Nat) : Bool :=
  (p.horzAllocs >>> y) &&& 1 ≠ 0

/-- `(*Project1Fa21).setHAlloc` from eula.go. -/
def setHAlloc (p : Project1Fa21) (y : Nat) : Project1Fa21 :=
  { p with horzAllocs := p.horzAllocs ||| ((1 <<< y) % 2 ^ 64) }

/-- `(*Project1Fa21).checkVAlloc` from eula.go. -/
def checkVAlloc (p : Project1Fa21) (x : Nat) : Bool :=
  (p.vertAllocs >>> x) &&& 1 ≠ 0

/-- `(*Project1Fa21).setVAlloc` from eula.go. -/
def setVAlloc (p : Project1Fa21) (x : Nat) : Project1Fa21 :=
  { p with vertAllocs := p.vertAllocs ||| ((1 <<< x) % 2 ^ 64) }

/-- `intAbs` from eula.go. -/
def intAbs (a : Int) : Int :=
  if a < 0 then -a else a

/-- The ten-attempt inner loop of `generatePart` placing one horizontal line;
returns the appended line offset (`desiredY - tly`) when a placement
succeeds. -/
def genHLineAttempt (p : Project1Fa21) (tlx width tly height color : Nat) (r : Rng) :
    Nat → Option (Option Nat × Project1Fa21 × Rng)
  | 0 => some (Option.none, p, r)
  | a + 1 =>
    let (d0, r) := r.intn height
    let desiredY := d0 + tly
    if ¬ checkHAlloc p desiredY ∧ ¬ checkHAlloc p (desiredY - 1) ∧
        ¬ checkHAlloc p (desiredY + 1) then
      let p := setHAlloc p desiredY
      match drawHLine p tlx (tlx + width - 1) desiredY color with
      | Option.none => Option.none
      | some p => some (some (desiredY - tly), p, r)
    else genHLineAttempt p tlx width tly height color r a

/-- The ten-attempt inner loop of `generatePart` placing one vertical line. -/
def genVLineAttempt (p : Project1Fa21) (tlx width tly height color : Nat) (r : Rng) :
    Nat → Option (Option Nat × Project1Fa21 × Rng)
  | 0 => some (Option.none, p, r)
  | a + 1 =>
    let (d0, r) := r.intn width
    let desiredX := d0 + tlx
    if ¬ checkVAlloc p desiredX ∧ ¬ checkVAlloc p (desiredX - 1) ∧
        ¬ checkVAlloc p (desiredX + 1) then
      let p := setVAlloc p desiredX
      match drawVLine p desiredX tly (tly + height - 1) color with
      | Option.none => Option.none
      | some p => some (some (desiredX - tlx), p, r)
    else genVLineAttempt p tlx width tly height color r a

/-- The horizontal-line loop of `generatePart`: one ten-attempt placement per
requested line, collecting the offsets of the lines actually placed. -/
def genHLines (p : Project1Fa21) (tlx width tly height color : Nat) (r : Rng)
    (count : Nat) : Option (List Nat × Project1Fa21 × Rng) :=
  (List.range count).foldlM
    (fun (st : List Nat × Project1Fa21 × Rng) _ =>
      match genHLineAttempt st.2.1 tlx width tly height color st.2.2 10 with
      | Option.none => Option.none
      | some (Option.none, p, r) => some (st.1, p, r)
      | some (some off, p, r) => some (st.1 ++ [off], p, r))
    ([], p, r)

/-- The vertical-line loop of `generatePart`. -/
def genVLines (p : Project1Fa21) (tlx width tly height color : Nat) (r : Rng)
    (count : Nat) : Option (List Nat × Project1Fa21 × Rng) :=
  (List.range count).foldlM
    (fun (st : List Nat × Project1Fa21 × Rng) _ =>
      match genVLineAttempt st.2.1 tlx width tly height color st.2.2 10 with
      | Option.none => Option.none
      | some (Option.none, p, r) => some (st.1, p, r)
      | some (some off, p, r) => some (st.1 ++ [off], p, r))
    ([], p, r)

/-- The double loop of `generatePart` computing the minimum absolute spacing
between two distinct entries (64 when fewer than two entries exist). -/
def minPairSpacing (ls : List Nat) : Int :=
  (List.range ls.length).foldl
    (fun m i =>
      (List.range ls.length).foldl
        (fun m j =>
          if i = j then m
          else
            let d := intAbs ((ls.getD i 0 : Int) - (ls.getD j 0 : Int))
            if d < m then d else m)
        m)
    64

/-- `(*Project1Fa21).generatePart` from eula.go.  The returned `Bool` is the
Go return value (`false` forces a full pile regeneration). -/
def generatePart (p : Project1Fa21) (color : Nat) (isTarget : Bool) (r : Rng) :
    Option (Bool × Project1Fa21 × Rng) :=
  let (w0, r) := r.intn 21
  let width := w0 + 25
  let (h0, r) := r.intn 21
  let height := h0 + 25
  let targetVertLines := width / 12
  let targetHorzLines := height / 12
  let (tx0, r) := r.intn (62 - width)
  let tlx := tx0 + 1
  let (ty0, r) := r.intn (62 - height)
  let tly := ty0 + 1
  match genHLines p tlx width tly height color r targetHorzLines with
  | Option.none => Option.none
  | some (hLines, p, r) =>
    match genVLines p tlx width tly height color r targetVertLines with
    | Option.none => Option.none
    | some (vLines, p, r) =>
      if vLines.length = 0 ∨ hLines.length = 0 then some (false, p, r)
      else
        if isTarget then
          let p := { p with horzLineCount := hLines.length,
                            vertLineCount := vLines.length }
          let mv := minPairSpacing vLines
          let p := { p with spacing :=
            if mv = 2 then P1Spacing.vert else P1Spacing.none }
          let mh := minPairSpacing hLines
          let p := { p with spacing :=
            if mh = 2 ∧ p.spacing = P1Spacing.vert then P1Spacing.both
            else if mh = 2 then P1Spacing.horz
            else p.spacing }
          let hasHExtreme := hLines.any (fun v => v = 0 ∨ v = height - 1)
          let hasVExtreme := vLines.any (fun v => v = 0 ∨ v = width - 1)
          let p := { p with geometry :=
            if hasHExtreme ∧ hasVExtreme then P1Geometry.l
            else if hasHExtreme ∨ hasVExtreme then P1Geometry.t
            else P1Geometry.none }
          some (true, { p with hLines := hLines, vLines := vLines,
                               tlx := tlx, tly := tly }, r)
        else some (true, p, r)

/-- The rejection loop of `generatePile` drawing one part color distinct from
the already-chosen ones. -/
def drawUniqueColor (chosen : List Nat) (r : Rng) : Nat → Option (Nat × Rng)
  | 0 => Option.none
  | fuel + 1 =>
    let (c0, r) := r.intn 7
    let c := c0 + 1
    if chosen.contains c then drawUniqueColor chosen r fuel else some (c, r)

/-- The color-selection loop of `generatePile`: seven distinct colors drawn in
order. -/
def genColors (r : Rng) (fuel : Nat) : Option (List Nat × Rng) :=
  (List.range 7).foldlM
    (fun (st : List Nat × Rng) _ =>
      match drawUniqueColor st.1 st.2 fuel with
      | Option.none => Option.none
      | some (c, r) => some (st.1 ++ [c], r))
    ([], r)

/-- The part-generation loop of `generatePile`; an inner `false` return aborts
immediately as in the Go code. -/
def genParts (p : Project1Fa21) (target : Nat) (r : Rng) :
    List Nat → Option (Bool × Project1Fa21 × Rng)
  | [] => some (true, p, r)
  | c :: rest =>
    match generatePart p c (decide (c = target)) r with
    | Option.none => Option.none
    | some (false, p, r) => some (false, p, r)
    | some (true, p, r) => genParts p target r rest

/-- `(*Project1Fa21).generatePile` from eula.go. -/
def generatePile (p : Project1Fa21) (r : Rng) (fuel : Nat) :
    Option (Bool × Project1Fa21 × Rng) :=
  match genColors r fuel with
  | Option.none => Option.none
  | some (colors, r) =>
    let p := { p with pile := Array.mkArray 1024 0, horzAllocs := 0, vertAllocs := 0 }
    genParts p p.targetColor r colors

/-- The brute-force scan of `validatePile`: minimum and maximum x and y of
target-colored pixels over `x, y ∈ [1, 62]`, starting from
`(minX, minY, maxX, maxY) = (64, 64, 0, 0)`. -/
def scanPile (p : Project1Fa21) : Option (Nat × Nat × Nat × Nat) :=
  (List.range 62).foldlM
    (fun (st : Nat × Nat × Nat × Nat) yi =>
      (List.range 62).foldlM
        (fun (st : Nat × Nat × Nat × Nat) xi =>
          let x := xi + 1
          let y := yi + 1
          match getPoint p x y with
          | Option.none => Option.none
          | some c =>
            if c = p.targetColor then
              let (minX, minY, maxX, maxY) := st
              let minX := if x < minX then x else minX
              let maxX := if x > maxX then x else maxX
              let minY := if y < minY then y else minY
              let maxY := if y > maxY then y else maxY
              some (minX, minY, maxX, maxY)
            else some st)
        st)
    (64, 64, 0, 0)

/-- The horizontal obscurity test of `validatePile`. -/
def obscuredH (p : Project1Fa21) (minX maxX : Nat) : List Nat → Option Bool
  | [] => some false
  | v :: rest =>
    match getPoint p minX (v + p.tly) with
    | Option.none => Option.none
    | some c1 =>
      if c1 ≠ p.targetColor then some true
      else
        match getPoint p maxX (v + p.tly) with
        | Option.none => Option.none
        | some c2 =>
          if c2 ≠ p.targetColor then some true else obscuredH p minX maxX rest

/-- The vertical obscurity test of `validatePile`. -/
def obscuredV (p : Project1Fa21) (minY maxY : Nat) : List Nat → Option Bool
  | [] => some false
  | v :: rest =>
    match getPoint p (v + p.tlx) minY with
    | Option.none => Option.none
    | some c1 =>
      if c1 ≠ p.targetColor then some true
      else
        match getPoint p (v + p.tlx) maxY with
        | Option.none => Option.none
        | some c2 =>
          if c2 ≠ p.targetColor then some true else obscuredV p minY maxY rest

/-- `(*Project1Fa21).validatePile` from eula.go: compute the solution bounding
box, reject boxes smaller than 25 by 25, and classify obscurity. -/
def validatePile (p : Project1Fa21) : Option (Bool × Project1Fa21) :=
  match scanPile p with
  | Option.none => Option.none
  | some (minX, minY, maxX, maxY) =>
    if (maxX : Int) - (minX : Int) + 1 < 25 then some (false, p)
    else if (maxY : Int) - (minY : Int) + 1 < 25 then some (false, p)
    else
      let p := { p with solution :=
        ((((minY * 64 + minX) % 2 ^ 32) <<< 16) % 2 ^ 32) |||
          ((maxY * 64 + maxX) % 2 ^ 32) }
      match obscuredH p minX maxX p.hLines with
      | Option.none => Option.none
      | some ho =>
        match obscuredV p minY maxY p.vLines with
        | Option.none => Option.none
        | some vo =>
          let p := { p with obscurity :=
            if ho ∧ vo then P1Obscurity.both
            else if ho then P1Obscurity.horz
            else if vo then P1Obscurity.vert
            else P1Obscurity.none }
          some (true, p)

/-- The generate-validate retry loop of `(*instance).swi598` (the Go watchdog
each 100 iterations only reseeds the wall-clock RNG). -/
def swi598Gen (p : Project1Fa21) (r : Rng) (fuel : Nat) :
    Nat → Option (Project1Fa21 × Rng)
  | 0 => Option.none
  | outer + 1 =>
    match generatePile p r fuel with
    | Option.none => Option.none
    | some (false, p, r) => swi598Gen p r fuel outer
    | some (true, p, r) =>
      match validatePile p with
      | Option.none => Option.none
      | some (false, p) => swi598Gen p r fuel outer
      | some (true, p) => some (p, r)

/-- The Go zero value of `Project1Fa21` as allocated by `new` (the fixed-size
`[1024]uint32` pile array is zeroed). -/
def project1Fa21Zero : Project1Fa21 :=
  { targetColor := 0, solution := 0, reportedAnswer := 0,
    obscurity := P1Obscurity.none, spacing := P1Spacing.none,
    geometry := P1Geometry.none, horzLineCount := 0, vertLineCount := 0,
    pile := Array.mkArray 1024 0, horzAllocs := 0, vertAllocs := 0,
    vLines := [], hLines := [], tlx := 0, tly := 0 }

/-- `(*instance).swi598` from eula.go. -/
def swi598 (inst : EmuInstance) (fuel : Nat) : Option EmuInstance :=
  let inst := if ¬ regInitialized inst 1 then reportError inst eSoftwareInterruptParameter
              else inst
  let p := { project1Fa21Zero with reportedAnswer := 0x12345678 }
  let (c0, inst) := randIntn inst 7
  let p := { p with targetColor := c0 + 1 }
  let inst := regWrite inst 3 p.targetColor
  match swi598Gen p inst.rng fuel fuel with
  | Option.none => Option.none
  | some (p, r) =>
    let inst := { inst with rng := r }
    let (memLoc, inst) := regAccess inst 1
    match (List.range 1024).foldlM
        (fun inst i =>
          match p.pile[i]? with
          | Option.none => Option.none
          | some w => memWrite inst ((memLoc + i * 4) % 2 ^ 32) w 0xFFFFFFFF)
        inst with
    | Option.none => Option.none
    | some inst => some { inst with swiContext := SWIContext.p1fa21 p }

/-- `(*instance).swi599` from eula.go: grade the packed answer reported in
register 2 and expose the packed solution in register 3. -/
def swi599 (inst : EmuInstance) : EmuInstance :=
  match inst.swiContext with
  | SWIContext.p1fa21 p =>
    let inst := if ¬ regInitialized inst 1 then reportError inst eSoftwareInterruptParameter
                else inst
    let (v, inst1) := regAccess inst 2
    let p := { p with reportedAnswer := v }
    let inst1 := { inst1 with swiContext := SWIContext.p1fa21 p }
    if (p.reportedAnswer &&& 0xFFFF) > 4096 ∨ (p.reportedAnswer >>> 16) > 4096 then
      reportError inst1 eSoftwareInterruptParameterValue
    else
      regWrite inst1 3 p.solution
  | _ => reportError inst eInvalidSoftwareInterrupt

/-- `dispatchSoftwareInterrupt` from softwareInterrupts.go: unknown codes are
ignored. -/
def dispatchSoftwareInterrupt (inst : EmuInstance) (iCode : Nat) (fuel : Nat) :
    Option EmuInstance :=
  if iCode = 582 then swi582 inst fuel
  else if iCode = 583 then some (swi583 inst)
  else if iCode = 598 then swi598 inst fuel
  else if iCode = 599 then some (swi599 inst)
  else some inst

/-! ## Instruction execution (emulator.go) -/

/-- Go `uint32` subtraction `a - b` (two's-complement wraparound). -/
def wsub (a b : Nat) : Nat :=
  (a % 2 ^ 32 + (2 ^ 32 - b % 2 ^ 32)) % 2 ^ 32

/-- `(*instance).executeRType` from emulator.go.  Every Go `regAccess` call is
mirrored in order (DIV and DIVU read each operand twice, as the source does).
`none` models the Go run-time panic of an integer division by zero. -/
def executeRType (inst : EmuInstance) (x y z fn : Nat) (shift : Nat) :
    Option EmuInstance :=
  if fn = fnADD then
    let (a, inst) := regAccess inst x
    let (b, inst) := regAccess inst y
    some (regWrite inst z (ofInt32 (toInt32 a + toInt32 b)))
  else if fn = fnADDU then
    let (a, inst) := regAccess inst x
    let (b, inst) := regAccess inst y
    some (regWrite inst z ((a + b) % 2 ^ 32))
  else if fn = fnAND then
    let (a, inst) := regAccess inst x
    let (b, inst) := regAccess inst y
    some (regWrite inst z (a &&& b))
  else if fn = fnDIV then
    let (a1, inst) := regAccess inst x
    let (b1, inst) := regAccess inst y
    if toInt32 b1 = 0 then none
    else
      let inst := { inst with lo := ofInt32 (Int.tdiv (toInt32 a1) (toInt32 b1)) }
      let (a2, inst) := regAccess inst x
      let (b2, inst) := regAccess inst y
      if toInt32 b2 = 0 then none
      else
        some { inst with hi := ofInt32 (Int.tmod (toInt32 a2) (toInt32 b2)),
                         hiLoFilled := true }
  else if fn = fnDIVU then
    let (a1, inst) := regAccess inst x
    let (b1, inst) := regAccess inst y
    if b1 = 0 then none
    else
      let inst := { inst with lo := a1 / b1 }
      let (a2, inst) := regAccess inst x
      let (b2, inst) := regAccess inst y
      if b2 = 0 then none
      else some { inst with hi := a2 % b2, hiLoFilled := true }
  else if fn = fnJR then
    let (a, inst) := regAccess inst x
    some { inst with pc := wsub a 4 }
  else if fn = fnMFHI then
    let inst := if ¬ inst.hiLoFilled then reportError inst eHiLoUninitializedAccess
                else inst
    some (regWrite inst z inst.hi)
  else if fn = fnMFLO then
    let inst := if ¬ inst.hiLoFilled then reportError inst eHiLoUninitializedAccess
                else inst
    some (regWrite inst z inst.lo)
  else if fn = fnMULT then
    let (a, inst) := regAccess inst x
    let (b, inst) := regAccess inst y
    let res : Int := toInt32 a * toInt32 b
    some { inst with hi := ofInt32 (Int.fdiv res (2 ^ 32)), lo := ofInt32 res,
                     hiLoFilled := true }
  else if fn = fnMULTU then
    let (a, inst) := regAccess inst x
    let (b, inst) := regAccess inst y
    let res : Nat := a * b
    some { inst with hi := (res >>> 32) % 2 ^ 32, lo := res % 2 ^ 32,
                     hiLoFilled := true }
  else if fn = fnXOR then
    let (a, inst) := regAccess inst x
    let (b, inst) := regAccess inst y
    some (regWrite inst z (a ^^^ b))
  else if fn = fnOR then
    let (a, inst) := regAccess inst x
    let (b, inst) := regAccess inst y
    some (regWrite inst z (a ||| b))
  else if fn = fnSLT then
    let (a, inst) := regAccess inst x
    let (b, inst) := regAccess inst y
    if toInt32 a < toInt32 b then some (regWrite inst z 1)
    else some (regWrite inst z 0)
  else if fn = fnSLTU then
    let (a, inst) := regAccess inst x
    let (b, inst) := regAccess inst y
    if a < b then some (regWrite inst z 1) else some (regWrite inst z 0)
  else if fn = fnSLL then
    let (a, inst) := regAccess inst x
    some (regWrite inst z ((a <<< shift) % 2 ^ 32))
  else if fn = fnSRL then
    let (a, inst) := regAccess inst x
    some (regWrite inst z (a >>> shift))
  else if fn = fnSRA then
    let (a, inst) := regAccess inst x
    some (regWrite inst z (ofInt32 (Int.fdiv (toInt32 a) (2 ^ shift))))
  else if fn = fnSLLV then
    let (amt, inst) := regAccess inst y
    let inst := if amt > 31 then reportError inst eShiftOverflow else inst
    let (a, inst) := regAccess inst x
    some (regWrite inst z ((a <<< (amt &&& 0x1F)) % 2 ^ 32))
  else if fn = fnSRLV then
    let (amt, inst) := regAccess inst y
    let inst := if amt > 31 then reportError inst eShiftOverflow else inst
    let (a, inst) := regAccess inst x
    some (regWrite inst z (a >>> (amt &&& 0x1F)))
  else if fn = fnSRAV then
    let (amt, inst) := regAccess inst y
    let inst := if amt > 31 then reportError inst eShiftOverflow else inst
    let (a, inst) := regAccess inst x
    some (regWrite inst z (ofInt32 (Int.fdiv (toInt32 a) (2 ^ (amt &&& 0x1F)))))
  else if fn = fnSUB then
    let (a, inst) := regAccess inst x
    let (b, inst) := regAccess inst y
    some (regWrite inst z (ofInt32 (toInt32 a - toInt32 b)))
  else if fn = fnSUBU then
    let (a, inst) := regAccess inst x
    let (b, inst) := regAccess inst y
    some (regWrite inst z (wsub a b))
  else
    some (reportError inst eInvalidInstruction)

/-- `(*instance).executeIType` from emulator.go.  `fuel` bounds the rejection
sampling inside a dispatched software interrupt; `none` models a panic (or an
interrupt whose unbounded sampling loop exceeds the fuel). -/
def executeIType (inst : EmuInstance) (op x z : Nat) (imm : Nat) (fuel : Nat) :
    Option EmuInstance :=
  if op = opADDI then
    let imm := ofInt32 (Int.fdiv (toInt32 ((imm <<< 16) % 2 ^ 32)) (2 ^ 16))
    let (a, inst) := regAccess inst x
    some (regWrite inst z ((a + imm) % 2 ^ 32))
  else if op = opADDIU then
    let imm := ofInt32 (Int.fdiv (toInt32 ((imm <<< 16) % 2 ^ 32)) (2 ^ 16))
    let (a, inst) := regAccess inst x
    some (regWrite inst z ((a + imm) % 2 ^ 32))
  else if op = opANDI then
    let (a, inst) := regAccess inst x
    some (regWrite inst z (a &&& imm))
  else if op = opBEQ then
    let (a, inst) := regAccess inst z
    let (b, inst) := regAccess inst x
    if a = b then some { inst with pc := wsub ((imm * 4) % 2 ^ 32) 4 } else some inst
  else if op = opBNE then
    let (a, inst) := regAccess inst z
    let (b, inst) := regAccess inst x
    if a ≠ b then some { inst with pc := wsub ((imm * 4) % 2 ^ 32) 4 } else some inst
  else if op = opLB then
    let (ax, inst) := regAccess inst x
    let a := (ax + imm) % 2 ^ 32
    match memAccess inst a false with
    | none => none
    | some ((v, _), inst) =>
      let v := v >>> (a % 4 * 8)
      let v := ofInt32 (Int.fdiv (toInt32 (((v &&& 0xFF) <<< 24) % 2 ^ 32)) (2 ^ 24))
      some (regWrite inst z v)
  else if op = opLBU then
    let (ax, inst) := regAccess inst x
    let a := (ax + imm) % 2 ^ 32
    match memAccess inst a false with
    | none => none
    | some ((v, _), inst) =>
      let v := v >>> (a % 4 * 8)
      some (regWrite inst z (v &&& 0xFF))
  else if op = opLW then
    let (ax, inst) := regAccess inst x
    let a := (ax + imm) % 2 ^ 32
    match memAccess inst a false with
    | none => none
    | some ((v, _), inst) => some (regWrite inst z v)
  else if op = opLUI then
    some (regWrite inst z ((imm <<< 16) % 2 ^ 32))
  else if op = opORI then
    let (a, inst) := regAccess inst x
    some (regWrite inst z (a ||| imm))
  else if op = opSB then
    let (ax, inst) := regAccess inst x
    let a := (ax + imm) % 2 ^ 32
    let (az, inst) := regAccess inst z
    let b := az &&& 0xFF
    let b := (b <<< (a % 4 * 8)) % 2 ^ 32
    memWrite inst a b ((0xFF <<< (a % 4 * 8)) % 2 ^ 32)
  else if op = opSLTI then
    let (a, inst) := regAccess inst x
    if toInt32 a < toInt32 imm then some (regWrite inst z 1)
    else some (regWrite inst z 0)
  else if op = opSLTIU then
    let (a, inst) := regAccess inst x
    if a < imm then some (regWrite inst z 1) else some (regWrite inst z 0)
  else if op = opSW then
    let (ax, inst) := regAccess inst x
    let a := (ax + imm) % 2 ^ 32
    let (az, inst) := regAccess inst z
    memWrite inst a az 0xFFFFFFFF
  else if op = opSWI then
    dispatchSoftwareInterrupt inst imm fuel
  else
    some (reportError inst eInvalidInstruction)

/-- `(*instance).executeJType` from emulator.go. -/
def executeJType (inst : EmuInstance) (op : Nat) (imm : Nat) : EmuInstance :=
  if op = opJ then
    { inst with pc := wsub ((imm * 4) % 2 ^ 32) 4 }
  else if op = opJAL then
    let inst := regWrite inst 31 ((inst.pc + 8) % 2 ^ 32)
    { inst with pc := wsub ((imm * 4) % 2 ^ 32) 4 }
  else inst

/-! ## The emulation loop (emulator.go, `Emulate`) -/

/-- The halt processing inside the terminal check of `Emulate`: when the loop
breaks, `ErrorLimitReached` is appended if the error count has reached the
tolerance, otherwise `RuntimeLimitExceeded` if the instruction budget is
exceeded. -/
def finishHalt (inst : EmuInstance) (eTol : Int) (limit : Nat) : EmuInstance :=
  if (inst.errors.length : Int) ≥ eTol then reportError inst eErrorLimitReached
  else if inst.di > limit then reportError inst eRuntimeLimitExceeded
  else inst

/-- One non-terminal iteration of the `Emulate` loop: fetch through the
instruction cache, dispatch by opcode shape, and perform the `di`/`pc`
post-increments.  A failed fetch only advances `pc` and `di`. -/
def stepInstr (inst : EmuInstance) (fuel : Nat) : Option EmuInstance :=
  match memAccess inst inst.pc true with
  | none => none
  | some ((instrWord, ok), inst) =>
    if ok = false then
      some { inst with pc := (inst.pc + 4) % 2 ^ 32, di := inst.di + 1 }
    else
      let d := decodeInstruction instrWord
      let step :=
        if instrWord = 0 then some inst
        else if d.op = 0 then executeRType inst d.x d.y d.z d.fn d.imm
        else if d.op = opJ ∨ d.op = opJAL then some (executeJType inst d.op d.imm)
        else executeIType inst d.op d.x d.z d.imm fuel
      match step with
      | none => none
      | some inst => some { inst with di := inst.di + 1, pc := (inst.pc + 4) % 2 ^ 32 }

/-- Outcome of running the `Emulate` loop: `halted pre final` records the
state at the terminal check together with the state after halt processing;
`aborted` models a Go panic (or exhausted rejection-sampling fuel inside an
interrupt); `outOfFuel` means the loop fuel ran out before a terminal check
fired. -/
inductive LoopResult where
  | halted (pre final : EmuInstance)
  | aborted
  | outOfFuel

/-- The `for true` loop of `Emulate`, fuelled. -/
def runLoop (fuel : Nat) (inst : EmuInstance) (eTol : Int) (limit : Nat) : LoopResult :=
  match fuel with
  | 0 => LoopResult.outOfFuel
  | fuel + 1 =>
    if inst.pc = 0xFFFFFFFF ∨ (inst.errors.length : Int) ≥ eTol ∨ inst.di > limit then
      LoopResult.halted inst (finishHalt inst eTol limit)
    else
      match stepInstr inst fuel with
      | none => LoopResult.aborted
      | some inst => runLoop fuel inst eTol limit

/-- The instance as reset at the top of `Emulate` (registers 0, 29 and 31
seeded and marked initialized, `pc` forced to word alignment, zero-valued
caches with empty backing arrays). -/
def initInstance (startAddr : Nat) (mem : SystemMemory) (limit : Nat) (rng : Rng) :
    EmuInstance :=
  { memory := mem,
    pc := startAddr &&& 0xFFFFFFFC,
    regs := fun r => if r = 31 then 0xFFFFFFFF else if r = 29 then 0x00100000 else 0,
    regInit := 1 ||| (1 <<< 29) ||| (1 <<< 31),
    hiLoFilled := false, hi := 0, lo := 0,
    iCache := { startAddr := 0, memory := #[], initialized := #[] },
    dCache := { startAddr := 0, memory := #[], initialized := #[] },
    dMissed := false, di := 0, runtimeLimit := limit,
    swiContext := SWIContext.nilCtx, errors := [], rng := rng }

/-- `EmulationResult` from emulator.go (the unpopulated branch-analysis map
is not modelled). -/
structure EmulationResult where
  memory : SystemMemory
  registers : Nat → Nat
  regInit : Nat
  di : Nat
  swiContext : SWIContext
  errors : List Nat

/-- The result struct built at the bottom of `Emulate`. -/
def resultOf (inst : EmuInstance) : EmulationResult :=
  { memory := inst.memory, registers := inst.regs, regInit := inst.regInit,
    di := inst.di, swiContext := inst.swiContext, errors := inst.errors }

/-- `Emulate` from emulator.go.  The `rng` argument makes the process-wide
random stream explicit and `fuel` bounds the loop (the Go loop is unbounded,
so every property below is quantified over the fuel). -/
def Emulate (startAddr : Nat) (mem : SystemMemory) (limit : Nat) (eTol : Int)
    (rng : Rng) (fuel : Nat) : Option EmulationResult :=
  match runLoop fuel (initInstance startAddr mem limit rng) eTol limit with
  | LoopResult.halted _ final => some (resultOf final)
  | _ => none

/-! ## Assembler data pass (assembler.go) -/

/-- `MemoryImage` from assembler.go. -/
structure MemoryImage where
  startingAddr : Nat
  memory : List Nat
deriving Repr

/-- `strings.Trim(s, " \t")` on a character list. -/
def trimSpaceTab (s : List Char) : List Char :=
  ((s.dropWhile fun c => c = ' ' ∨ c = '\t').reverse.dropWhile
    fun c => c = ' ' ∨ c = '\t').reverse

/-- The hex-digit loop of `getLiteralValueFull` from assembler.go (`all` is
the string after the `0x` marker, kept whole for the error message). -/
def parseHexDigits (all : List Char) : List Char → Nat → Except String Nat
  | [], ret => Except.ok ret
  | c :: rest, ret =>
    if c ≤ '9' ∧ '0' ≤ c then
      parseHexDigits all rest (((ret <<< 4) % 2 ^ 32) ||| (c.toNat - '0'.toNat))
    else if c ≤ 'f' ∧ 'a' ≤ c then
      parseHexDigits all rest (((ret <<< 4) % 2 ^ 32) ||| (c.toNat - 'a'.toNat + 10))
    else
      Except.error ("\"" ++ String.mk all ++ "\" is not a valid hexadecimal number")

/-- The decimal-digit loop of `getLiteralValueFull` from assembler.go.
`msgPfx` is the quoted (and possibly minus-signed) rendering of the digit
string for the two error messages, `threshold` the pre-multiplication
overflow guard (`0xE666666` on the negative path, `0x19999999` otherwise). -/
def parseDecDigits (msgPfx : String) (threshold : Nat) :
    List Char → Nat → Except String Nat
  | [], ret => Except.ok ret
  | c :: rest, ret =>
    if c ≤ '9' ∧ '0' ≤ c then
      if ret > threshold then
        Except.error (msgPfx ++ "\" has magnitude too large to store in 32 bits")
      else
        parseDecDigits msgPfx threshold rest ((ret * 10 + (c.toNat - '0'.toNat)) % 2 ^ 32)
    else
      Except.error (msgPfx ++ "\" is not a valid integer number")

/-- `getLiteralValueFull` from assembler.go.  The label table is the Go
`map[string]uint32`.  The `isSignedImm` branch of the Go source is an empty
hook (its body is commented out) and has no effect. -/
def getLiteralValueFull (s : String) (labels : String → Option Nat)
    (isSignedImm : Bool) : Except String Nat :=
  let t := trimSpaceTab s.data
  match t with
  | [] => Except.error "expected a literal, got nothing"
  | c0 :: _ =>
    if c0 = '-' ∨ c0.isDigit then
      let low := t.map Char.toLower
      match low with
      | '0' :: 'x' :: hexPart => parseHexDigits hexPart hexPart 0
      | '-' :: digits =>
        (parseDecDigits ("\"-" ++ String.mk digits) 0xE666666 digits 0).map
          (fun ret => ((ret ^^^ 0xFFFFFFFF) + 1) % 2 ^ 32)
      | digits => parseDecDigits ("\"" ++ String.mk digits) 0x19999999 digits 0
    else
      match labels (String.mk t) with
      | some v => Except.ok v
      | none => Except.error ("unresolved label \"" ++ String.mk t ++ "\"")

/-- `getLiteralValue` from assembler.go. -/
def getLiteralValue (s : String) (labels : String → Option Nat) : Except String Nat :=
  getLiteralValueFull s labels false

/-- The memory-expansion loop at the top of `insertMemoryValue`, with
structural fuel (each appended word adds 4 bytes of capacity, so `addr + 1`
iterations always carry the loop to its exit condition). -/
def expandMemFuel (addr start : Nat) : Nat → List Nat → List Nat
  | 0, mem => mem
  | fuel + 1, mem =>
    if addr ≥ start + mem.length * 4 then expandMemFuel addr start fuel (mem ++ [0])
    else mem

/-- The memory-expansion loop at the top of `insertMemoryValue`. -/
def expandMem (addr start : Nat) (mem : List Nat) : List Nat :=
  expandMemFuel addr start (addr + 1) mem

/-- `insertMemoryValue` from assembler.go.  The word index is
`(addr - mem.startingAddr) / 4` with Go `uint32` subtraction; `none` models
the Go panic when that index (after wraparound for `addr` below the image
start) is out of range. -/
def insertMemoryValue (addr value : Nat) (mem : MemoryImage) : Option MemoryImage :=
  let memory := expandMem addr mem.startingAddr mem.memory
  let idx := wsub addr mem.startingAddr / 4
  match memory[idx]? with
  | Option.none => Option.none
  | some prev =>
    some { mem with memory := memory.set idx (prev ||| ((value <<< (addr % 4 * 8)) % 2 ^ 32)) }

/-- The running state of the `assembleData` loop: the current byte cursor
(`currentAddr`), the label table, the image being filled, and the list of
error messages passed to `assemblyReportError` so far. -/
structure AsmDataState where
  currentAddr : Nat
  labels : String → Option Nat
  mem : MemoryImage
  errors : List String

/-- Insertion into the Go label map. -/
def setLabel (m : String → Option Nat) (k : String) (v : Nat) :
    String → Option Nat :=
  fun q => if q = k then some v else m q

/-- The `.byte` case of `assembleData` from assembler.go, taken from the
point where the comma-delimited value list has been split: the label binds
to `currentAddr + 1`, and each literal advances the cursor by one byte, is
checked against the byte overflow test
`v & 0xFFFFFF00 != 0xFFFFFF00 && v & 0xFFFFFF00 != 0`, and is stored
masked to its low byte. -/
def byteCase (label : String) (values : List String) (st : AsmDataState) :
    Option AsmDataState :=
  let st := { st with labels := setLabel st.labels label ((st.currentAddr + 1) % 2 ^ 32) }
  values.foldlM
    (fun (st : AsmDataState) literal =>
      let (v, st) :=
        match getLiteralValue literal st.labels with
        | Except.ok v => (v, st)
        | Except.error e => (0, { st with errors := st.errors ++ [e] })
      let st := { st with currentAddr := (st.currentAddr + 1) % 2 ^ 32 }
      let st :=
        if v &&& 0xFFFFFF00 ≠ 0xFFFFFF00 ∧ v &&& 0xFFFFFF00 ≠ 0 then
          { st with errors := st.errors ++ ["\"" ++ literal ++ "\" overflows a byte"] }
        else st
      match insertMemoryValue st.currentAddr (v &&& 0xFF) st.mem with
      | Option.none => Option.none
      | some mem => some { st with mem := mem })
    st

/-- The `.word` case of `assembleData` from assembler.go, from the same
point: the label binds to `(currentAddr + 4) & 0xFFFFFFFC`, and each literal
executes `currentAddr += (currentAddr + 4) & 0xFFFFFFFC` before the value is
inserted at `currentAddr`. -/
def wordCase (label : String) (values : List String) (st : AsmDataState) :
    Option AsmDataState :=
  let lbl := setLabel st.labels label (((st.currentAddr + 4) % 2 ^ 32) &&& 0xFFFFFFFC)
  let st := { st with labels := lbl }
  values.foldlM
    (fun (st : AsmDataState) literal =>
      let (v, st) :=
        match getLiteralValue literal st.labels with
        | Except.ok v => (v, st)
        | Except.error e => (0, { st with errors := st.errors ++ [e] })
      let st := { st with currentAddr :=
        (st.currentAddr + (((st.currentAddr + 4) % 2 ^ 32) &&& 0xFFFFFFFC)) % 2 ^ 32 }
      match insertMemoryValue st.currentAddr v st.mem with
      | Option.none => Option.none
      | some mem => some { st with mem := mem })
    st

/-- The state entering the directive dispatch of `assembleData` for the first
data line: `currentAddr = DataStart - 1` (with Go `uint32` wraparound), an
empty label table, and an image whose `startingAddr` is `DataStart`. -/
def asmDataInit (dataStart : Nat) : AsmDataState :=
  { currentAddr := wsub dataStart 1,
    labels := fun _ => Option.none,
    mem := { startingAddr := dataStart, memory := [] },
    errors := [] }

/-! ## Helper lemmas -/

/-- A well-formed page: backing arrays of the sizes `make` gives them. -/
def PageWF (p : MemoryPage) : Prop :=
  p.memory.size = 1024 ∧ p.initialized.size = 32

/-- A well-formed page table: every stored page is well-formed. -/
def MemWF (m : SystemMemory) : Prop :=
  ∀ k p, m k = some p → PageWF p

theorem getD_getElem_self (a : Array Nat) (i v : Nat) (h : i < a.size) :
    (a.setD i v)[i]? = some v := by
  rw [Array.setD, dif_pos h, Array.getElem?_eq_getElem (by simpa using h)]
  simp

theorem getElem_mkArray_of_lt (n v i : Nat) (h : i < n) :
    (Array.mkArray n v)[i]? = some v := by
  rw [Array.getElem?_eq_getElem (by simpa using h)]
  simp

theorem initBit_set (x b : Nat) : ((x ||| (1 <<< b)) >>> b) &&& 1 = 1 := by
  have h1 : (x ||| (1 <<< b)).testBit b = true := by
    simp [Nat.testBit_lor, Nat.one_shiftLeft, Nat.testBit_two_pow_self]
  rw [Nat.testBit_to_div_mod] at h1
  rw [Nat.and_one_is_mod, Nat.shiftRight_eq_div_pow]
  simpa using h1

theorem initBit_set_mod (x b : Nat) : ((x ||| (1 <<< b)) >>> b) % 2 = 1 := by
  have h := initBit_set x b
  rwa [Nat.and_one_is_mod] at h

theorem maskedWord_full (data old : Nat) (h : data < 2 ^ 32) :
    maskedWord data 0xFFFFFFFF old = data := by
  rw [maskedWord, Nat.xor_self, Nat.and_zero, Nat.or_zero]
  have he : (0xFFFFFFFF : Nat) = 2 ^ 32 - 1 := by norm_num
  rw [he, Nat.and_pow_two_sub_one_eq_mod, Nat.mod_eq_of_lt h]

theorem word_idx_lt (addr : Nat) : addr / 4 % 1024 < 1024 :=
  Nat.mod_lt _ (by norm_num)

theorem init_idx_lt (addr : Nat) : (addr % 4096) / 128 < 32 := by
  have h : addr % 4096 < 4096 := Nat.mod_lt _ (by norm_num)
  omega

theorem written_arrays_read (mem0 init0 : Array Nat) (addr V old iw : Nat)
    (hm : mem0.size = 1024) (hi : init0.size = 32) (hV : V < 2 ^ 32) :
    (mem0.setD (addr / 4 % 1024) (maskedWord V 0xFFFFFFFF old))[addr / 4 % 1024]?
        = some V ∧
      (init0.setD ((addr % 4096) / 128)
          (iw ||| (1 <<< ((addr % 4096) / 4 % 32))))[(addr % 4096) / 128]?
        = some (iw ||| (1 <<< ((addr % 4096) / 4 % 32))) := by
  constructor
  · rw [getD_getElem_self _ _ _ (by rw [hm]; exact word_idx_lt addr)]
    rw [maskedWord_full V old hV]
  · rw [getD_getElem_self _ _ _ (by rw [hi]; exact init_idx_lt addr)]

set_option maxRecDepth 100000 in
/-- C1: writing a word with the full mask `0xFFFFFFFF` and then reading the
same address (with either access kind) yields the written value with the
initialized flag set, on any instance with well-formed caches and page
table. -/
theorem write_full_then_read (inst : EmuInstance) (addr V : Nat) (isInstr : Bool)
    (hic : PageWF inst.iCache) (hdc : PageWF inst.dCache) (hm : MemWF inst.memory)
    (hV : V < 2 ^ 32) :
    (memWrite inst addr V 0xFFFFFFFF).bind
        (fun i1 => (memAccess i1 addr isInstr).map Prod.fst) = some (V, true) := by
  by_cases h1 : addr >>> 12 = inst.iCache.startAddr >>> 12
  · obtain ⟨hms, his⟩ := hic
    have hmidx : addr / 4 % 1024 < inst.iCache.memory.size := by
      rw [hms]; exact word_idx_lt addr
    have hiidx : (addr % 4096) / 128 < inst.iCache.initialized.size := by
      rw [his]; exact init_idx_lt addr
    obtain ⟨hr1, hr2⟩ := written_arrays_read inst.iCache.memory inst.iCache.initialized
      addr V (inst.iCache.memory.get ⟨addr / 4 % 1024, hmidx⟩)
      (inst.iCache.initialized.get ⟨(addr % 4096) / 128, hiidx⟩) hms his hV
    simp only [Array.get_eq_getElem] at hr1 hr2
    unfold memWrite
    rw [if_pos h1, Array.getElem?_eq_getElem hmidx, Array.getElem?_eq_getElem hiidx]
    dsimp only [Option.bind]
    unfold memAccess
    simp [h1, hr1, hr2, initBit_set, initBit_set_mod]
  · by_cases h2 : addr >>> 12 = inst.dCache.startAddr >>> 12
    · obtain ⟨hms, his⟩ := hdc
      have hmidx : addr / 4 % 1024 < inst.dCache.memory.size := by
        rw [hms]; exact word_idx_lt addr
      have hiidx : (addr % 4096) / 128 < inst.dCache.initialized.size := by
        rw [his]; exact init_idx_lt addr
      obtain ⟨hr1, hr2⟩ := written_arrays_read inst.dCache.memory inst.dCache.initialized
        addr V (inst.dCache.memory.get ⟨addr / 4 % 1024, hmidx⟩)
        (inst.dCache.initialized.get ⟨(addr % 4096) / 128, hiidx⟩) hms his hV
      simp only [Array.get_eq_getElem] at hr1 hr2
      have h1d : ¬ inst.dCache.startAddr >>> 12 = inst.iCache.startAddr >>> 12 := by
        rw [← h2]; exact h1
      unfold memWrite
      rw [if_neg h1, if_pos h2, Array.getElem?_eq_getElem hmidx,
        Array.getElem?_eq_getElem hiidx]
      dsimp only [Option.bind]
      unfold memAccess
      simp [h1, h2, h1d, hr1, hr2, initBit_set, initBit_set_mod]
    · cases hpg : inst.memory (addr >>> 12) with
      | some pg =>
        obtain ⟨hms, his⟩ := hm _ _ hpg
        have hmidx : addr / 4 % 1024 < pg.memory.size := by
          rw [hms]; exact word_idx_lt addr
        have hiidx : (addr % 4096) / 128 < pg.initialized.size := by
          rw [his]; exact init_idx_lt addr
        obtain ⟨hr1, hr2⟩ := written_arrays_read pg.memory pg.initialized
          addr V (pg.memory.get ⟨addr / 4 % 1024, hmidx⟩)
          (pg.initialized.get ⟨(addr % 4096) / 128, hiidx⟩) hms his hV
        simp only [Array.get_eq_getElem] at hr1 hr2
        unfold memWrite
        rw [if_neg h1, if_neg h2, hpg]
        dsimp only
        rw [Array.getElem?_eq_getElem hmidx, Array.getElem?_eq_getElem hiidx]
        dsimp only [Option.bind]
        unfold memAccess
        simp [h1, h2, hr1, hr2, initBit_set, initBit_set_mod]
        split
        · exact ⟨_, rfl⟩
        · split
          · exact ⟨_, rfl⟩
          · exact ⟨_, rfl⟩
      | none =>
        obtain ⟨hr1, hr2⟩ := written_arrays_read (Array.mkArray 1024 0)
          (Array.mkArray 32 0) addr V 0 0 (by simp) (by simp) hV
        simp only [Nat.zero_or] at hr2
        unfold memWrite
        rw [if_neg h1, if_neg h2, hpg]
        dsimp only
        rw [getElem_mkArray_of_lt _ _ _ (word_idx_lt addr),
          getElem_mkArray_of_lt _ _ _ (init_idx_lt addr)]
        dsimp only [Option.bind]
        unfold memAccess
        simp [h1, h2, hr1, hr2, initBit_set, initBit_set_mod]
        split
        · exact ⟨_, rfl⟩
        · split
          · exact ⟨_, rfl⟩
          · exact ⟨_, rfl⟩

theorem lor_shiftLeft_add (a b k : Nat) (hb : b < 2 ^ k) : a <<< k ||| b = a <<< k + b := by
  apply Nat.eq_of_testBit_eq
  intro i
  rw [Nat.testBit_lor, Nat.shiftLeft_eq, Nat.mul_comm, Nat.testBit_mul_pow_two_add _ hb,
    Nat.testBit_mul_pow_two]
  by_cases h : i < k
  · simp [h, Nat.not_le.mpr h]
  · have hbf : b.testBit i = false :=
      Nat.testBit_lt_two_pow
        (lt_of_lt_of_le hb (Nat.pow_le_pow_right (by norm_num) (Nat.le_of_not_lt h)))
    simp [h, hbf, Nat.le_of_not_lt h]

theorem and_mask_eq_mod (w k : Nat) : w &&& (2 ^ k - 1) = w % 2 ^ k :=
  Nat.and_pow_two_sub_one_eq_mod w k

/-- C7: re-encoding the decoded fields of any 32-bit instruction word with the
matching `form*` function reproduces the word. -/
theorem encode_decode_id (w : Nat) (hw : w < 2 ^ 32) : reencodeInstruction w = w := by
  by_cases h0 : w >>> 26 = 0
  · have hd : decodeInstruction w =
        { op := w >>> 26, x := (w >>> 21) &&& 0x1F, y := (w >>> 16) &&& 0x1F,
          z := (w >>> 11) &&& 0x1F, imm := (w >>> 6) &&& 0x1F, fn := w &&& 0x3F } := by
      unfold decodeInstruction
      dsimp only
      rw [if_pos h0]
    rw [reencodeInstruction, hd]
    dsimp only
    rw [if_pos h0]
    have e5 : (0x1F : Nat) = 2 ^ 5 - 1 := by norm_num
    have e6 : (0x3F : Nat) = 2 ^ 6 - 1 := by norm_num
    rw [formRInstruction, h0]
    rw [e5, e6, and_mask_eq_mod, and_mask_eq_mod, and_mask_eq_mod, and_mask_eq_mod,
      and_mask_eq_mod]
    rw [Nat.shiftRight_eq_div_pow, Nat.shiftRight_eq_div_pow, Nat.shiftRight_eq_div_pow,
      Nat.shiftRight_eq_div_pow] at *
    rw [Nat.mod_eq_of_lt (show (0 % 2 ^ 32) <<< 26 < 2 ^ 32 by norm_num [Nat.shiftLeft_eq]),
      Nat.mod_eq_of_lt (show (w / 2 ^ 21 % 2 ^ 5) <<< 21 < 2 ^ 32 by
        rw [Nat.shiftLeft_eq]; omega),
      Nat.mod_eq_of_lt (show (w / 2 ^ 16 % 2 ^ 5) <<< 16 < 2 ^ 32 by
        rw [Nat.shiftLeft_eq]; omega),
      Nat.mod_eq_of_lt (show (w / 2 ^ 11 % 2 ^ 5) <<< 11 < 2 ^ 32 by
        rw [Nat.shiftLeft_eq]; omega),
      Nat.mod_eq_of_lt (show (w / 2 ^ 6 % 2 ^ 5) <<< 6 < 2 ^ 32 by
        rw [Nat.shiftLeft_eq]; omega),
      Nat.mod_eq_of_lt (show w % 2 ^ 6 < 2 ^ 32 by omega)]
    rw [Nat.lor_assoc, Nat.lor_assoc, Nat.lor_assoc, Nat.lor_assoc]
    rw [show (0 % 2 ^ 32) <<< 26 = 0 by norm_num [Nat.shiftLeft_eq], Nat.zero_or]
    rw [lor_shiftLeft_add _ _ _ (show w % 2 ^ 6 < 2 ^ 6 by omega)]
    rw [lor_shiftLeft_add _ _ _ (show (w / 2 ^ 6 % 2 ^ 5) <<< 6 + w % 2 ^ 6 < 2 ^ 11 by
      rw [Nat.shiftLeft_eq]; omega)]
    rw [lor_shiftLeft_add _ _ _ (show (w / 2 ^ 11 % 2 ^ 5) <<< 11 +
        ((w / 2 ^ 6 % 2 ^ 5) <<< 6 + w % 2 ^ 6) < 2 ^ 16 by
      simp only [Nat.shiftLeft_eq]; omega)]
    rw [lor_shiftLeft_add _ _ _ (show (w / 2 ^ 16 % 2 ^ 5) <<< 16 +
        ((w / 2 ^ 11 % 2 ^ 5) <<< 11 + ((w / 2 ^ 6 % 2 ^ 5) <<< 6 + w % 2 ^ 6)) < 2 ^ 21 by
      simp only [Nat.shiftLeft_eq]; omega)]
    simp only [Nat.shiftLeft_eq]
    omega
  · by_cases hJ : w >>> 26 = opJ ∨ w >>> 26 = opJAL
    · have hd : decodeInstruction w =
          { op := w >>> 26, x := 0, y := 0, z := 0, imm := w &&& 0x03FFFFFF, fn := 0 } := by
        unfold decodeInstruction
        dsimp only
        rw [if_neg h0, if_pos hJ]
      rw [reencodeInstruction, hd]
      dsimp only
      rw [if_neg h0, if_pos hJ]
      have e26 : (0x03FFFFFF : Nat) = 2 ^ 26 - 1 := by norm_num
      rw [formJInstruction, e26, and_mask_eq_mod, Nat.shiftRight_eq_div_pow]
      rw [Nat.mod_eq_of_lt (show w / 2 ^ 26 < 2 ^ 32 by omega)]
      rw [Nat.mod_eq_of_lt (show (w / 2 ^ 26) <<< 26 < 2 ^ 32 by
        rw [Nat.shiftLeft_eq]; omega)]
      rw [lor_shiftLeft_add _ _ _ (show w % 2 ^ 26 < 2 ^ 26 by omega)]
      rw [Nat.shiftLeft_eq]
      omega
    · have hd : decodeInstruction w =
          { op := w >>> 26, x := (w >>> 16) &&& 0x1F, y := 0, z := (w >>> 21) &&& 0x1F,
            imm := w &&& 0xFFFF, fn := 0 } := by
        unfold decodeInstruction
        dsimp only
        rw [if_neg h0, if_neg hJ]
      rw [reencodeInstruction, hd]
      dsimp only
      rw [if_neg h0, if_neg hJ]
      have e5 : (0x1F : Nat) = 2 ^ 5 - 1 := by norm_num
      have e16 : (0xFFFF : Nat) = 2 ^ 16 - 1 := by norm_num
      rw [formIInstruction, e5, e16, and_mask_eq_mod, and_mask_eq_mod, and_mask_eq_mod,
        and_mask_eq_mod, Nat.shiftRight_eq_div_pow, Nat.shiftRight_eq_div_pow,
        Nat.shiftRight_eq_div_pow]
      rw [Nat.mod_eq_of_lt (show w / 2 ^ 26 < 2 ^ 32 by omega)]
      rw [Nat.mod_eq_of_lt (show (w / 2 ^ 26) <<< 26 < 2 ^ 32 by
        rw [Nat.shiftLeft_eq]; omega)]
      rw [Nat.mod_eq_of_lt (show (w / 2 ^ 21 % 2 ^ 5) <<< 21 < 2 ^ 32 by
        rw [Nat.shiftLeft_eq]; omega)]
      rw [Nat.mod_eq_of_lt (show (w / 2 ^ 16 % 2 ^ 5) <<< 16 < 2 ^ 32 by
        rw [Nat.shiftLeft_eq]; omega)]
      rw [Nat.lor_assoc, Nat.lor_assoc]
      rw [lor_shiftLeft_add _ _ _ (show w % 2 ^ 16 % 2 ^ 16 < 2 ^ 16 by omega)]
      rw [lor_shiftLeft_add _ _ _
        (show (w / 2 ^ 16 % 2 ^ 5) <<< 16 + w % 2 ^ 16 % 2 ^ 16 < 2 ^ 21 by
          rw [Nat.shiftLeft_eq]; omega)]
      rw [lor_shiftLeft_add _ _ _
        (show (w / 2 ^ 21 % 2 ^ 5) <<< 21 +
            ((w / 2 ^ 16 % 2 ^ 5) <<< 16 + w % 2 ^ 16 % 2 ^ 16) < 2 ^ 26 by
          simp only [Nat.shiftLeft_eq]; omega)]
      simp only [Nat.shiftLeft_eq]
      omega

/-- C10: immediately after the reset in `Emulate`, both caches are the
zero-valued page (tag 0 with empty backing arrays), and any access or write
whose address lies on page 0 takes a cache-hit branch and indexes the empty
arrays out of bounds — a Go panic (`none`), not a reported
`UninitializedMemoryAccess`. -/
theorem reset_page0_cache_panic (startAddr : Nat) (mem : SystemMemory) (limit : Nat)
    (rng : Rng) (addr : Nat) (isInstr : Bool) (data mask : Nat)
    (h : addr >>> 12 = 0) :
    (initInstance startAddr mem limit rng).iCache =
        { startAddr := 0, memory := #[], initialized := #[] } ∧
      (initInstance startAddr mem limit rng).dCache =
        { startAddr := 0, memory := #[], initialized := #[] } ∧
      memAccess (initInstance startAddr mem limit rng) addr isInstr = Option.none ∧
      memWrite (initInstance startAddr mem limit rng) addr data mask = Option.none := by
  refine ⟨rfl, rfl, ?_, ?_⟩
  · unfold memAccess
    rw [if_pos (show addr >>> 12 =
        (initInstance startAddr mem limit rng).iCache.startAddr >>> 12 by
      simp [initInstance, h])]
    simp [initInstance]
  · unfold memWrite
    rw [if_pos (show addr >>> 12 =
        (initInstance startAddr mem limit rng).iCache.startAddr >>> 12 by
      simp [initInstance, h])]
    simp [initInstance]

/-- The empty page table. -/
def emptyMem : SystemMemory := fun _ => Option.none

/-- A constant random stream (used only to instantiate witnesses). -/
def zeroRng : Rng := { f := fun _ => 0, idx := 0 }

/-- Witness for C10 at the concrete address 100 (page 0). -/
theorem reset_page0_cache_panic_witness :
    (initInstance 0 emptyMem 0 zeroRng).iCache =
        { startAddr := 0, memory := #[], initialized := #[] } ∧
      (initInstance 0 emptyMem 0 zeroRng).dCache =
        { startAddr := 0, memory := #[], initialized := #[] } ∧
      memAccess (initInstance 0 emptyMem 0 zeroRng) 100 false = Option.none ∧
      memWrite (initInstance 0 emptyMem 0 zeroRng) 100 1 0xFFFFFFFF = Option.none :=
  reset_page0_cache_panic 0 emptyMem 0 zeroRng 100 false 1 0xFFFFFFFF (by decide)

/-- An all-zero well-formed page at the given start address. -/
def blankPage (start : Nat) : MemoryPage :=
  { startAddr := start, memory := Array.mkArray 1024 0,
    initialized := Array.mkArray 32 0 }

/-- A bare instance used to instantiate witnesses: well-formed caches on pages
1 and 2, an empty page table, and nothing else of note. -/
def witnessInst : EmuInstance :=
  { memory := emptyMem, pc := 0, regs := fun _ => 0, regInit := 0,
    hiLoFilled := false, hi := 0, lo := 0,
    iCache := blankPage 0x1000, dCache := blankPage 0x2000, dMissed := false,
    di := 0, runtimeLimit := 0, swiContext := SWIContext.nilCtx, errors := [],
    rng := zeroRng }

/-- Witness for C1: writing 7 at address `0x3000` on `witnessInst` and reading
it back yields `(7, true)`. -/
theorem write_full_then_read_witness :
    (memWrite witnessInst 0x3000 7 0xFFFFFFFF).bind
        (fun i1 => (memAccess i1 0x3000 false).map Prod.fst) = some (7, true) :=
  write_full_then_read witnessInst 0x3000 7 false
    ⟨by simp [witnessInst, blankPage], by simp [witnessInst, blankPage]⟩
    ⟨by simp [witnessInst, blankPage], by simp [witnessInst, blankPage]⟩
    (fun _ _ h => Option.noConfusion h)
    (by norm_num)

/-- Witness for C7 at the concrete word `0x3D00FFFF` (`lui $8, 0xFFFF`). -/
theorem encode_decode_id_witness : reencodeInstruction 0x3D00FFFF = 0x3D00FFFF :=
  encode_decode_id 0x3D00FFFF (by norm_num)

/-- C2: the two-strike data-miss policy of `memAccess`.  For a data access
whose page matches neither cache and whose word is present and initialized in
the page table: with the missed-once flag clear, the access only sets the flag
and leaves the data cache unchanged; with the flag set, the access replaces
the data cache with the accessed page.  And any successful data-cache hit
clears the flag. -/
theorem data_cache_two_strike (inst : EmuInstance) (addr : Nat) (pg : MemoryPage)
    (iw v : Nat)
    (h1 : ¬ addr >>> 12 = inst.iCache.startAddr >>> 12)
    (h2 : ¬ addr >>> 12 = inst.dCache.startAddr >>> 12)
    (hpg : inst.memory (addr >>> 12) = some pg)
    (hiw : pg.initialized[(addr % 4096) / 128]? = some iw)
    (hbit : (iw >>> ((addr % 4096) / 4 % 32)) &&& 1 = 1)
    (hv : pg.memory[addr / 4 % 1024]? = some v) :
    (inst.dMissed = false →
      memAccess inst addr false = some ((v, true), { inst with dMissed := true })) ∧
    (inst.dMissed = true →
      memAccess inst addr false = some ((v, true), { inst with dCache := pg })) ∧
    (∀ (inst2 : EmuInstance) (addr2 iw2 v2 : Nat),
      ¬ addr2 >>> 12 = inst2.iCache.startAddr >>> 12 →
      addr2 >>> 12 = inst2.dCache.startAddr >>> 12 →
      inst2.dCache.initialized[(addr2 % 4096) / 128]? = some iw2 →
      (iw2 >>> ((addr2 % 4096) / 4 % 32)) &&& 1 = 1 →
      inst2.dCache.memory[addr2 / 4 % 1024]? = some v2 →
      memAccess inst2 addr2 false = some ((v2, true), { inst2 with dMissed := false })) := by
  have hbit2 : (iw >>> ((addr % 4096) / 4 % 32)) % 2 = 1 := by
    rwa [Nat.and_one_is_mod] at hbit
  refine ⟨?_, ?_, ?_⟩
  · intro hdm
    unfold memAccess
    simp [h1, h2, hpg, hiw, hbit, hbit2, hv, hdm]
  · intro hdm
    unfold memAccess
    simp [h1, h2, hpg, hiw, hbit, hbit2, hv, hdm]
  · intro inst2 addr2 iw2 v2 g1 g2 giw gbit gv
    have gbit2 : (iw2 >>> ((addr2 % 4096) / 4 % 32)) % 2 = 1 := by
      rwa [Nat.and_one_is_mod] at gbit
    have g1d : ¬ inst2.dCache.startAddr >>> 12 = inst2.iCache.startAddr >>> 12 := by
      rw [← g2]; exact g1
    unfold memAccess
    simp [g1, g2, g1d, giw, gbit, gbit2, gv]

/-- A fully initialized page at `0x3000` holding the word 9 everywhere. -/
def wPage3 : MemoryPage :=
  { startAddr := 0x3000, memory := Array.mkArray 1024 9,
    initialized := Array.mkArray 32 0xFFFFFFFF }

/-- `witnessInst` with page 3 present in the page table. -/
def witnessInst2 : EmuInstance :=
  { witnessInst with memory := fun k => if k = 3 then some wPage3 else Option.none }

set_option maxRecDepth 100000 in
/-- Witness for C2: the two-strike policy observed on concrete states at
address `0x3000`. -/
theorem data_cache_two_strike_witness :
    memAccess witnessInst2 0x3000 false
        = some ((9, true), { witnessInst2 with dMissed := true }) ∧
      memAccess { witnessInst2 with dMissed := true } 0x3000 false
        = some ((9, true), { witnessInst2 with dMissed := true, dCache := wPage3 }) ∧
      memAccess { witnessInst with dCache := wPage3, dMissed := true } 0x3000 false
        = some ((9, true), { witnessInst with dCache := wPage3, dMissed := false }) :=
  ⟨(data_cache_two_strike witnessInst2 0x3000 wPage3 0xFFFFFFFF 9
      (by decide) (by decide) rfl (by decide) (by decide) (by decide)).1 rfl,
   (data_cache_two_strike { witnessInst2 with dMissed := true } 0x3000 wPage3 0xFFFFFFFF 9
      (by decide) (by decide) rfl (by decide) (by decide) (by decide)).2.1 rfl,
   (data_cache_two_strike witnessInst2 0x3000 wPage3 0xFFFFFFFF 9
      (by decide) (by decide) rfl (by decide) (by decide) (by decide)).2.2
     { witnessInst with dCache := wPage3, dMissed := true } 0x3000 0xFFFFFFFF 9
     (by decide) (by decide) (by decide) (by decide) (by decide)⟩

/-! ## Claims C5, C6, C8: concrete directive and generator evaluations -/

/-- The error messages reported when assembling a single `.byte` line with one
literal at the default data start `0x8000`. -/
def byteDirectiveErrors (lit : String) : Option (List String) :=
  (byteCase "b" [lit] (asmDataInit 0x8000)).map AsmDataState.errors

/-- C5 counterexample: `.byte` with the literal `-129` reports no overflow
error (its two's-complement value `0xFFFFFF7F` passes the
`v & 0xFFFFFF00 ∈ {0, 0xFFFFFF00}` test), contradicting the claim that values
outside `[-128, 255]` are always rejected. -/
theorem byte_directive_accepts_minus129 : byteDirectiveErrors "-129" = some [] := by
  decide

/-- C5 (amended): the `.byte` overflow test accepts exactly the two's
complement values in `[-256, 255]`: `-128`, `255`, `-129` and `-256` assemble
without error, while `256` and `-257` report an overflow. -/
theorem byte_directive_range :
    byteDirectiveErrors "-128" = some [] ∧
      byteDirectiveErrors "255" = some [] ∧
      byteDirectiveErrors "256" = some ["\"256\" overflows a byte"] ∧
      byteDirectiveErrors "-129" = some [] ∧
      byteDirectiveErrors "-256" = some [] ∧
      byteDirectiveErrors "-257" = some ["\"-257\" overflows a byte"] := by
  decide

/-- C6: assembling `A: .word 5` at data start `0x100` binds the label to the
aligned address `0x100`, but the cursor update
`currentAddr += (currentAddr + 4) & 0xFFFFFFFC` moves the cursor to `0x1FF`,
so the value is stored (shifted into the high byte of word index 63) far from
the label; the word at the label address stays 0. -/
theorem word_directive_misplaces_value :
    (wordCase "A" ["5"] (asmDataInit 0x100)).map
        (fun st => (st.labels "A", st.currentAddr, st.mem.memory.getD 0 0,
          st.mem.memory.getD 63 0))
      = some (some 0x100, 0x1FF, 0, 0x05000000) := by
  decide

/-- C8: the word `31673` (cells `1,2,3,2,3,2,3,1` from bit 0 upward) is
accepted by the `genSquare` rejection test — and is the square `genSquare`
returns when the random stream yields it — although its cyclically adjacent
cells 7 and 0 both hold color 1: the `i = 7` wrap-around comparison only
rejects squares whose cell 7 is color 0. -/
theorem genSquare_accepts_adjacent_wrap :
    genSquareCheckLoop 31673 0 8 = true ∧
      squareCell 31673 7 = 1 ∧
      squareCell 31673 0 = 1 ∧
      (genSquare { witnessInst with rng := { f := fun _ => 31673, idx := 0 } } 1).map
          Prod.fst = some 31673 := by
  decide

/-- C9: with error tolerance 0 the very first terminal check fires: `Emulate`
executes no instruction, returns `DI = 0`, and the error list is exactly one
`ErrorLimitReached`. -/
theorem emulate_zero_tolerance (startAddr : Nat) (mem : SystemMemory) (limit : Nat)
    (rng : Rng) (fuel : Nat) :
    (Emulate startAddr mem limit 0 rng (fuel + 1)).map (fun r => (r.di, r.errors))
      = some (0, [eErrorLimitReached]) := by
  unfold Emulate runLoop
  rw [if_pos (Or.inr (Or.inl (by simp [initInstance])))]
  simp [finishHalt, initInstance, reportError, resultOf]

/-! ## Instruction execution preserves the dynamic instruction counter -/

theorem reportError_di (i : EmuInstance) (e : Nat) : (reportError i e).di = i.di := rfl

theorem regWrite_di (i : EmuInstance) (r d : Nat) : (regWrite i r d).di = i.di := by
  unfold regWrite
  split <;> rfl

theorem regAccess_snd_di (i : EmuInstance) (r : Nat) : (regAccess i r).2.di = i.di := by
  unfold regAccess
  split <;> rfl

theorem randIntn_snd_di (i : EmuInstance) (n : Nat) : (randIntn i n).2.di = i.di := rfl

theorem memAccess_di (i : EmuInstance) (addr : Nat) (b : Bool)
    (r : Nat × Bool) (i' : EmuInstance) :
    memAccess i addr b = some (r, i') → i'.di = i.di := by
  intro h
  unfold memAccess at h
  repeat' split at h
  all_goals first
    | (simp only [Option.some.injEq, Prod.mk.injEq] at h
       obtain ⟨h1, h2⟩ := h
       subst h2
       rfl)
    | exact absurd h (by simp)

set_option maxRecDepth 100000 in
theorem memWrite_di (i : EmuInstance) (addr d m : Nat) (i' : EmuInstance) :
    memWrite i addr d m = some i' → i'.di = i.di := by
  intro h
  unfold memWrite at h
  simp only [getElem_mkArray_of_lt 1024 0 (addr / 4 % 1024) (word_idx_lt addr),
    getElem_mkArray_of_lt 32 0 ((addr % 4096) / 128) (init_idx_lt addr)] at h
  repeat' split at h
  all_goals first
    | (simp only [Option.some.injEq] at h
       subst h
       rfl)
    | exact absurd h (by simp)

theorem genSquare_di : ∀ (fuel : Nat) (i : EmuInstance) (t : Nat) (i' : EmuInstance),
    genSquare i fuel = some (t, i') → i'.di = i.di := by
  intro fuel
  induction fuel with
  | zero =>
    intro i t i' h
    exact absurd h (by simp [genSquare])
  | succ n ih =>
    intro i t i' h
    unfold genSquare at h
    simp only [randIntn, Rng.intn] at h
    split at h
    · simp only [Option.some.injEq, Prod.mk.injEq] at h
      obtain ⟨h1, h2⟩ := h
      subst h2
      rfl
    · have hx := ih _ _ _ h
      exact hx

theorem genSolution_di (p : Project1) (i : EmuInstance) :
    ((genSolution p i).2).di = i.di := by
  unfold genSolution
  simp only [randIntn, Rng.intn]

theorem foldlM_preserve {σ α : Type} (d : σ → Nat) (f : σ → α → Option σ)
    (hf : ∀ s a s', f s a = some s' → d s' = d s) :
    ∀ (l : List α) (s s' : σ), List.foldlM f s l = some s' → d s' = d s := by
  intro l
  induction l with
  | nil =>
    intro s s' h
    simp only [List.foldlM, pure, Option.some.injEq] at h
    rw [h]
  | cons a l ih =>
    intro s s' h
    simp only [List.foldlM] at h
    cases hf1 : f s a with
    | none => rw [hf1] at h; exact absurd h (by simp)
    | some s1 =>
      rw [hf1] at h
      simp only [Option.bind_eq_bind, Option.some_bind] at h
      rw [ih s1 s' h, hf s a s1 hf1]

theorem swi582Dummy_di : ∀ (fuel : Nat) (p : Project1) (a ix : Nat) (i : EmuInstance)
    (p' : Project1) (i' : EmuInstance),
    swi582Dummy p a ix i fuel = some (p', i') → i'.di = i.di := by
  intro fuel
  induction fuel with
  | zero =>
    intro p a ix i p' i' h
    exact absurd h (by simp [swi582Dummy])
  | succ n ih =>
    intro p a ix i p' i' h
    unfold swi582Dummy at h
    cases hg : genSquare i (n + 1) with
    | none => rw [hg] at h; exact absurd h (by simp)
    | some ti =>
      obtain ⟨t, i1⟩ := ti
      rw [hg] at h
      dsimp only at h
      have hdi1 : i1.di = i.di := genSquare_di _ _ _ _ hg
      split at h
      · cases hw : memWrite i1 ((a + ix * 4 + 4) % 2 ^ 32) t 0xFFFFFFFF with
        | none => rw [hw] at h; exact absurd h (by simp)
        | some i2 =>
          rw [hw] at h
          simp only [Option.some.injEq, Prod.mk.injEq] at h
          obtain ⟨h1, h2⟩ := h
          rw [← h2, memWrite_di _ _ _ _ _ hw, hdi1]
      · have hx := ih _ _ _ _ _ _ h
        rw [hx, hdi1]

theorem swi582Fold_di (a fuel : Nat) (st out : Project1 × EmuInstance) :
    (List.range 8).foldlM
        (fun (st : Project1 × EmuInstance) i =>
          if st.1.solutionOffset / 4 = i then some st
          else swi582Dummy st.1 a i st.2 fuel)
        st = some out →
      out.2.di = st.2.di := by
  intro h
  refine foldlM_preserve (fun s => s.2.di) _ ?_ _ st out h
  intro s b s' hf
  split at hf
  · simp only [Option.some.injEq] at hf
    rw [← hf]
  · obtain ⟨p', i'⟩ := s'
    exact swi582Dummy_di _ _ _ _ _ _ _ hf

theorem swi582_di (i : EmuInstance) (fuel : Nat) (i' : EmuInstance) :
    swi582 i fuel = some i' → i'.di = i.di := by
  intro h
  unfold swi582 at h
  dsimp only at h
  split at h
  · exact absurd h (by simp)
  · rename_i gsq t1 i1 hg
    have hd1 : i1.di = i.di := by
      rw [genSquare_di _ _ _ _ hg]
      split <;> rfl
    generalize hsol : genSolution ({ reference := t1, candidates := Array.mkArray 8 0, solutionOffset := 0, solutionRotation := P1Rot.sol0, solutionFlipped := false, reportedOffset := 0 } : Project1) i1 = pr at h
    obtain ⟨p2, i2⟩ := pr
    dsimp only at h
    have hd2 : i2.di = i.di := by
      have hx := genSolution_di ({ reference := t1, candidates := Array.mkArray 8 0, solutionOffset := 0, solutionRotation := P1Rot.sol0, solutionFlipped := false, reportedOffset := 0 } : Project1) i1
      rw [hsol] at hx
      exact hx.trans hd1
    split at h
    · exact absurd h (by simp)
    · rename_i mw1 i3 hw1
      have hd3 : i3.di = i.di := (memWrite_di _ _ _ _ _ hw1).trans hd2
      split at h
      · exact absurd h (by simp)
      · rename_i mw2 i4 hw2
        have hd4 : i4.di = i.di := (memWrite_di _ _ _ _ _ hw2).trans hd3
        split at h
        · exact absurd h (by simp)
        · rename_i fr p5 i5 hf
          simp only [Option.some.injEq] at h
          rw [← h]
          have hx := swi582Fold_di (i2.regs 1) fuel _ _ hf
          exact hx.trans hd4

theorem swi583_di (i : EmuInstance) : (swi583 i).di = i.di := by
  unfold swi583
  split
  · simp only [regAccess, regWrite, reportError]
    repeat' split
    all_goals rfl
  · rfl

theorem swi599_di (i : EmuInstance) : (swi599 i).di = i.di := by
  unfold swi599
  split
  · simp only [regAccess, regWrite, reportError]
    repeat' split
    all_goals rfl
  · rfl

theorem swi598Fold_di (P : Project1Fa21) (memLoc : Nat) (s s' : EmuInstance) :
    (List.range 1024).foldlM
        (fun inst i =>
          match P.pile[i]? with
          | Option.none => Option.none
          | some w => memWrite inst ((memLoc + i * 4) % 2 ^ 32) w 0xFFFFFFFF)
        s = some s' → s'.di = s.di := by
  intro h
  refine foldlM_preserve EmuInstance.di _ ?_ _ s s' h
  intro s1 a s2 hf
  split at hf
  · exact absurd hf (by simp)
  · exact memWrite_di _ _ _ _ _ hf

theorem swi598_di (i : EmuInstance) (fuel : Nat) (i' : EmuInstance) :
    swi598 i fuel = some i' → i'.di = i.di := by
  intro h
  unfold swi598 at h
  dsimp only at h
  split at h
  · exact absurd h (by simp)
  · rename_i gen p5 r5 hgen
    split at h
    · exact absurd h (by simp)
    · rename_i fr i6 hf
      simp only [Option.some.injEq] at h
      rw [← h]
      have hx := swi598Fold_di p5 _ _ _ hf
      rw [hx]
      rw [regAccess_snd_di]
      rw [regWrite_di]
      split <;> rfl

theorem dispatch_di (i : EmuInstance) (c fuel : Nat) (i' : EmuInstance) :
    dispatchSoftwareInterrupt i c fuel = some i' → i'.di = i.di := by
  intro h
  unfold dispatchSoftwareInterrupt at h
  repeat' split at h
  · exact swi582_di _ _ _ h
  · simp only [Option.some.injEq] at h
    rw [← h, swi583_di]
  · exact swi598_di _ _ _ h
  · simp only [Option.some.injEq] at h
    rw [← h, swi599_di]
  · simp only [Option.some.injEq] at h
    rw [← h]

theorem executeJType_di (i : EmuInstance) (op imm : Nat) :
    (executeJType i op imm).di = i.di := by
  unfold executeJType
  repeat' split
  all_goals first
    | rfl
    | (rw [show ∀ (j : EmuInstance) (pc2 : Nat),
          ({ j with pc := pc2 } : EmuInstance).di = j.di from fun _ _ => rfl,
        regWrite_di])

theorem executeRType_di (i : EmuInstance) (x y z fn sh : Nat) (i' : EmuInstance) :
    executeRType i x y z fn sh = some i' → i'.di = i.di := by
  intro h
  unfold executeRType at h
  by_cases h1 : fn = fnADD
  · rw [if_pos h1] at h
    dsimp only at h
    repeat' split at h
    all_goals first
      | (simp only [Option.some.injEq] at h
         rw [← h]
         repeat' split
         all_goals simp [regAccess_snd_di, regWrite_di, reportError_di])
      | exact Option.noConfusion h
  rw [if_neg h1] at h
  by_cases h2 : fn = fnADDU
  · rw [if_pos h2] at h
    dsimp only at h
    repeat' split at h
    all_goals first
      | (simp only [Option.some.injEq] at h
         rw [← h]
         repeat' split
         all_goals simp [regAccess_snd_di, regWrite_di, reportError_di])
      | exact Option.noConfusion h
  rw [if_neg h2] at h
  by_cases h3 : fn = fnAND
  · rw [if_pos h3] at h
    dsimp only at h
    repeat' split at h
    all_goals first
      | (simp only [Option.some.injEq] at h
         rw [← h]
         repeat' split
         all_goals simp [regAccess_snd_di, regWrite_di, reportError_di])
      | exact Option.noConfusion h
  rw [if_neg h3] at h
  by_cases h4 : fn = fnDIV
  · rw [if_pos h4] at h
    dsimp only at h
    repeat' split at h
    all_goals first
      | (simp only [Option.some.injEq] at h
         rw [← h]
         repeat' split
         all_goals simp [regAccess_snd_di, regWrite_di, reportError_di])
      | exact Option.noConfusion h
  rw [if_neg h4] at h
  by_cases h5 : fn = fnDIVU
  · rw [if_pos h5] at h
    dsimp only at h
    repeat' split at h
    all_goals first
      | (simp only [Option.some.injEq] at h
         rw [← h]
         repeat' split
         all_goals simp [regAccess_snd_di, regWrite_di, reportError_di])
      | exact Option.noConfusion h
  rw [if_neg h5] at h
  by_cases h6 : fn = fnJR
  · rw [if_pos h6] at h
    dsimp only at h
    repeat' split at h
    all_goals first
      | (simp only [Option.some.injEq] at h
         rw [← h]
         repeat' split
         all_goals simp [regAccess_snd_di, regWrite_di, reportError_di])
      | exact Option.noConfusion h
  rw [if_neg h6] at h
  by_cases h7 : fn = fnMFHI
  · rw [if_pos h7] at h
    dsimp only at h
    repeat' split at h
    all_goals first
      | (simp only [Option.some.injEq] at h
         rw [← h]
         repeat' split
         all_goals simp [regAccess_snd_di, regWrite_di, reportError_di])
      | exact Option.noConfusion h
  rw [if_neg h7] at h
  by_cases h8 : fn = fnMFLO
  · rw [if_pos h8] at h
    dsimp only at h
    repeat' split at h
    all_goals first
      | (simp only [Option.some.injEq] at h
         rw [← h]
         repeat' split
         all_goals simp [regAccess_snd_di, regWrite_di, reportError_di])
      | exact Option.noConfusion h
  rw [if_neg h8] at h
  by_cases h9 : fn = fnMULT
  · rw [if_pos h9] at h
    dsimp only at h
    repeat' split at h
    all_goals first
      | (simp only [Option.some.injEq] at h
         rw [← h]
         repeat' split
         all_goals simp [regAccess_snd_di, regWrite_di, reportError_di])
      | exact Option.noConfusion h
  rw [if_neg h9] at h
  by_cases h10 : fn = fnMULTU
  · rw [if_pos h10] at h
    dsimp only at h
    repeat' split at h
    all_goals first
      | (simp only [Option.some.injEq] at h
         rw [← h]
         repeat' split
         all_goals simp [regAccess_snd_di, regWrite_di, reportError_di])
      | exact Option.noConfusion h
  rw [if_neg h10] at h
  by_cases h11 : fn = fnXOR
  · rw [if_pos h11] at h
    dsimp only at h
    repeat' split at h
    all_goals first
      | (simp only [Option.some.injEq] at h
         rw [← h]
         repeat' split
         all_goals simp [regAccess_snd_di, regWrite_di, reportError_di])
      | exact Option.noConfusion h
  rw [if_neg h11] at h
  by_cases h12 : fn = fnOR
  · rw [if_pos h12] at h
    dsimp only at h
    repeat' split at h
    all_goals first
      | (simp only [Option.some.injEq] at h
         rw [← h]
         repeat' split
         all_goals simp [regAccess_snd_di, regWrite_di, reportError_di])
      | exact Option.noConfusion h
  rw [if_neg h12] at h
  by_cases h13 : fn = fnSLT
  · rw [if_pos h13] at h
    dsimp only at h
    repeat' split at h
    all_goals first
      | (simp only [Option.some.injEq] at h
         rw [← h]
         repeat' split
         all_goals simp [regAccess_snd_di, regWrite_di, reportError_di])
      | exact Option.noConfusion h
  rw [if_neg h13] at h
  by_cases h14 : fn = fnSLTU
  · rw [if_pos h14] at h
    dsimp only at h
    repeat' split at h
    all_goals first
      | (simp only [Option.some.injEq] at h
         rw [← h]
         repeat' split
         all_goals simp [regAccess_snd_di, regWrite_di, reportError_di])
      | exact Option.noConfusion h
  rw [if_neg h14] at h
  by_cases h15 : fn = fnSLL
  · rw [if_pos h15] at h
    dsimp only at h
    repeat' split at h
    all_goals first
      | (simp only [Option.some.injEq] at h
         rw [← h]
         repeat' split
         all_goals simp [regAccess_snd_di, regWrite_di, reportError_di])
      | exact Option.noConfusion h
  rw [if_neg h15] at h
  by_cases h16 : fn = fnSRL
  · rw [if_pos h16] at h
    dsimp only at h
    repeat' split at h
    all_goals first
      | (simp only [Option.some.injEq] at h
         rw [← h]
         repeat' split
         all_goals simp [regAccess_snd_di, regWrite_di, reportError_di])
      | exact Option.noConfusion h
  rw [if_neg h16] at h
  by_cases h17 : fn = fnSRA
  · rw [if_pos h17] at h
    dsimp only at h
    repeat' split at h
    all_goals first
      | (simp only [Option.some.injEq] at h
         rw [← h]
         repeat' split
         all_goals simp [regAccess_snd_di, regWrite_di, reportError_di])
      | exact Option.noConfusion h
  rw [if_neg h17] at h
  by_cases h18 : fn = fnSLLV
  · rw [if_pos h18] at h
    dsimp only at h
    repeat' split at h
    all_goals first
      | (simp only [Option.some.injEq] at h
         rw [← h]
         repeat' split
         all_goals simp [regAccess_snd_di, regWrite_di, reportError_di])
      | exact Option.noConfusion h
  rw [if_neg h18] at h
  by_cases h19 : fn = fnSRLV
  · rw [if_pos h19] at h
    dsimp only at h
    repeat' split at h
    all_goals first
      | (simp only [Option.some.injEq] at h
         rw [← h]
         repeat' split
         all_goals simp [regAccess_snd_di, regWrite_di, reportError_di])
      | exact Option.noConfusion h
  rw [if_neg h19] at h
  by_cases h20 : fn = fnSRAV
  · rw [if_pos h20] at h
    dsimp only at h
    repeat' split at h
    all_goals first
      | (simp only [Option.some.injEq] at h
         rw [← h]
         repeat' split
         all_goals simp [regAccess_snd_di, regWrite_di, reportError_di])
      | exact Option.noConfusion h
  rw [if_neg h20] at h
  by_cases h21 : fn = fnSUB
  · rw [if_pos h21] at h
    dsimp only at h
    repeat' split at h
    all_goals first
      | (simp only [Option.some.injEq] at h
         rw [← h]
         repeat' split
         all_goals simp [regAccess_snd_di, regWrite_di, reportError_di])
      | exact Option.noConfusion h
  rw [if_neg h21] at h
  by_cases h22 : fn = fnSUBU
  · rw [if_pos h22] at h
    dsimp only at h
    repeat' split at h
    all_goals first
      | (simp only [Option.some.injEq] at h
         rw [← h]
         repeat' split
         all_goals simp [regAccess_snd_di, regWrite_di, reportError_di])
      | exact Option.noConfusion h
  rw [if_neg h22] at h
  simp only [Option.some.injEq] at h
  rw [← h]
  simp [reportError_di]

theorem executeIType_di (i : EmuInstance) (op x z imm fuel : Nat) (i' : EmuInstance) :
    executeIType i op x z imm fuel = some i' → i'.di = i.di := by
  intro h
  unfold executeIType at h
  by_cases g1 : op = opADDI
  · rw [if_pos g1] at h
    try dsimp only at h
    repeat' split at h
    all_goals first
      | (simp only [Option.some.injEq] at h
         rw [← h]
         repeat' split
         all_goals simp [regAccess_snd_di, regWrite_di, reportError_di])
      | exact Option.noConfusion h
  rw [if_neg g1] at h
  by_cases g2 : op = opADDIU
  · rw [if_pos g2] at h
    try dsimp only at h
    repeat' split at h
    all_goals first
      | (simp only [Option.some.injEq] at h
         rw [← h]
         repeat' split
         all_goals simp [regAccess_snd_di, regWrite_di, reportError_di])
      | exact Option.noConfusion h
  rw [if_neg g2] at h
  by_cases g3 : op = opANDI
  · rw [if_pos g3] at h
    try dsimp only at h
    repeat' split at h
    all_goals first
      | (simp only [Option.some.injEq] at h
         rw [← h]
         repeat' split
         all_goals simp [regAccess_snd_di, regWrite_di, reportError_di])
      | exact Option.noConfusion h
  rw [if_neg g3] at h
  by_cases g4 : op = opBEQ
  · rw [if_pos g4] at h
    try dsimp only at h
    repeat' split at h
    all_goals first
      | (simp only [Option.some.injEq] at h
         rw [← h]
         repeat' split
         all_goals simp [regAccess_snd_di, regWrite_di, reportError_di])
      | exact Option.noConfusion h
  rw [if_neg g4] at h
  by_cases g5 : op = opBNE
  · rw [if_pos g5] at h
    try dsimp only at h
    repeat' split at h
    all_goals first
      | (simp only [Option.some.injEq] at h
         rw [← h]
         repeat' split
         all_goals simp [regAccess_snd_di, regWrite_di, reportError_di])
      | exact Option.noConfusion h
  rw [if_neg g5] at h
  by_cases g6 : op = opLB
  · rw [if_pos g6] at h
    try dsimp only at h
    split at h
    · exact Option.noConfusion h
    · rename_i i1 heq
      simp only [Option.some.injEq] at h
      rw [← h]
      simp [regWrite_di, memAccess_di _ _ _ _ _ heq, regAccess_snd_di]
  rw [if_neg g6] at h
  by_cases g7 : op = opLBU
  · rw [if_pos g7] at h
    try dsimp only at h
    split at h
    · exact Option.noConfusion h
    · rename_i i1 heq
      simp only [Option.some.injEq] at h
      rw [← h]
      simp [regWrite_di, memAccess_di _ _ _ _ _ heq, regAccess_snd_di]
  rw [if_neg g7] at h
  by_cases g8 : op = opLW
  · rw [if_pos g8] at h
    try dsimp only at h
    split at h
    · exact Option.noConfusion h
    · rename_i i1 heq
      simp only [Option.some.injEq] at h
      rw [← h]
      simp [regWrite_di, memAccess_di _ _ _ _ _ heq, regAccess_snd_di]
  rw [if_neg g8] at h
  by_cases g9 : op = opLUI
  · rw [if_pos g9] at h
    try dsimp only at h
    repeat' split at h
    all_goals first
      | (simp only [Option.some.injEq] at h
         rw [← h]
         repeat' split
         all_goals simp [regAccess_snd_di, regWrite_di, reportError_di])
      | exact Option.noConfusion h
  rw [if_neg g9] at h
  by_cases g10 : op = opORI
  · rw [if_pos g10] at h
    try dsimp only at h
    repeat' split at h
    all_goals first
      | (simp only [Option.some.injEq] at h
         rw [← h]
         repeat' split
         all_goals simp [regAccess_snd_di, regWrite_di, reportError_di])
      | exact Option.noConfusion h
  rw [if_neg g10] at h
  by_cases g11 : op = opSB
  · rw [if_pos g11] at h
    try dsimp only at h
    rw [memWrite_di _ _ _ _ _ h]
    simp [regAccess_snd_di]
  rw [if_neg g11] at h
  by_cases g12 : op = opSLTI
  · rw [if_pos g12] at h
    try dsimp only at h
    repeat' split at h
    all_goals first
      | (simp only [Option.some.injEq] at h
         rw [← h]
         repeat' split
         all_goals simp [regAccess_snd_di, regWrite_di, reportError_di])
      | exact Option.noConfusion h
  rw [if_neg g12] at h
  by_cases g13 : op = opSLTIU
  · rw [if_pos g13] at h
    try dsimp only at h
    repeat' split at h
    all_goals first
      | (simp only [Option.some.injEq] at h
         rw [← h]
         repeat' split
         all_goals simp [regAccess_snd_di, regWrite_di, reportError_di])
      | exact Option.noConfusion h
  rw [if_neg g13] at h
  by_cases g14 : op = opSW
  · rw [if_pos g14] at h
    try dsimp only at h
    rw [memWrite_di _ _ _ _ _ h]
    simp [regAccess_snd_di]
  rw [if_neg g14] at h
  by_cases g15 : op = opSWI
  · rw [if_pos g15] at h
    exact dispatch_di _ _ _ _ h
  rw [if_neg g15] at h
  simp only [Option.some.injEq] at h
  rw [← h]
  simp [reportError_di]


theorem stepInstr_di (i : EmuInstance) (fuel : Nat) (i' : EmuInstance) :
    stepInstr i fuel = some i' → i'.di = i.di + 1 := by
  intro h
  unfold stepInstr at h
  split at h
  · exact Option.noConfusion h
  rename_i w ok i1 heq
  have h1 : i1.di = i.di := memAccess_di _ _ _ _ _ heq
  split at h
  · simp only [Option.some.injEq] at h
    rw [← h]
    simp [h1]
  dsimp only at h
  split at h
  · exact Option.noConfusion h
  rename_i i2 heq2
  simp only [Option.some.injEq] at h
  rw [← h]
  have h2 : i2.di = i1.di := by
    repeat' split at heq2
    all_goals first
      | exact executeRType_di _ _ _ _ _ _ _ heq2
      | exact executeIType_di _ _ _ _ _ _ _ heq2
      | (simp only [Option.some.injEq] at heq2
         rw [← heq2, executeJType_di])
      | (simp only [Option.some.injEq] at heq2
         rw [← heq2])
  simp [h2, h1]

theorem finishHalt_di (i : EmuInstance) (e : Int) (l : Nat) :
    (finishHalt i e l).di = i.di := by
  unfold finishHalt
  repeat' split
  all_goals simp [reportError_di]

theorem runLoop_halt_di (fuel : Nat) :
    ∀ (inst : EmuInstance) (eTol : Int) (limit : Nat) (pre final : EmuInstance),
    inst.di ≤ limit + 1 →
    runLoop fuel inst eTol limit = LoopResult.halted pre final →
    final.di ≤ limit + 1 := by
  induction fuel with
  | zero =>
    intro inst eTol limit pre final _ h
    exact LoopResult.noConfusion h
  | succ fuel ih =>
    intro inst eTol limit pre final hle h
    unfold runLoop at h
    split at h
    · injection h with h1 h2
      rw [← h2, finishHalt_di]
      exact hle
    · rename_i hcond
      split at h
      · exact LoopResult.noConfusion h
      · rename_i i1 heq
        have hd : i1.di = inst.di + 1 := stepInstr_di _ _ _ heq
        have h3 : ¬ inst.di > limit := fun hg => hcond (Or.inr (Or.inr hg))
        exact ih i1 eTol limit pre final (by omega) h

/-- C4: for every start address, initial memory, runtime limit and error
tolerance (and any loop fuel and random stream), whenever `Emulate` returns a
result, its dynamic instruction count satisfies `DI ≤ runtimeLimit + 1`. -/
theorem emulate_di_le (startAddr : Nat) (mem : SystemMemory) (limit : Nat)
    (eTol : Int) (rng : Rng) (fuel : Nat) (r : EmulationResult) :
    Emulate startAddr mem limit eTol rng fuel = some r → r.di ≤ limit + 1 := by
  intro h
  unfold Emulate at h
  split at h
  · rename_i pre final heq
    simp only [Option.some.injEq] at h
    rw [← h]
    have hf : final.di ≤ limit + 1 :=
      runLoop_halt_di fuel _ eTol limit pre final (by simp [initInstance]) heq
    simpa [resultOf] using hf
  · exact Option.noConfusion h

theorem emulate_di_le_witness :
    (resultOf (finishHalt (initInstance 0 emptyMem 10 zeroRng) 0 10)).di ≤ 11 :=
  emulate_di_le 0 emptyMem 10 0 zeroRng 1 _ rfl

/-! ## The ordering of the terminal checks (claim about the pc sentinel) -/

/-- A page at 0x2000 holding `lui $8, 0xFFFF; ori $8, $8, 0xFFFB; jr $8`
(the emulator's own field convention: the I-type destination sits in bits
21–25). Running it sends the PC through the unmapped address 0xFFFFFFFB,
which reports an uninitialized-memory error on fetch and then increments the
PC to the sentinel 0xFFFFFFFF. -/
def progPageC3 : MemoryPage :=
  { startAddr := 0x2000,
    memory := (((Array.mkArray 1024 0).setD 0 0x3D00FFFF).setD 1
        0x3508FFFB).setD 2 0x01000008,
    initialized := (Array.mkArray 32 0).setD 0 7 }

def memC3 : SystemMemory := fun k => if k = 2 then some progPageC3 else Option.none

def runC3 : LoopResult := runLoop 6 (initInstance 0x2000 memC3 10 zeroRng) 1 10

def preC3 : EmuInstance :=
  match runC3 with
  | LoopResult.halted p _ => p
  | _ => initInstance 0 emptyMem 0 zeroRng

def finalC3 : EmuInstance :=
  match runC3 with
  | LoopResult.halted _ f => f
  | _ => initInstance 0 emptyMem 0 zeroRng

set_option maxRecDepth 100000 in
/-- C3 counterexample: a run (program `lui/ori/jr` through the unmapped
address 0xFFFFFFFB, error tolerance 1) that stops at a terminal check where
`pc = 0xFFFFFFFF`, yet halt processing appends `ErrorLimitReached`: the
sentinel check is not given priority over the error-count check when errors
are recorded. -/
theorem sentinel_halt_appends_error_limit :
    preC3.pc = 0xFFFFFFFF ∧
      preC3.errors = [eUninitializedMemoryAccess] ∧
      finalC3.errors = [eUninitializedMemoryAccess, eErrorLimitReached] :=
  ⟨rfl, rfl, rfl⟩

/-- C3 (amended): halt processing appends nothing exactly when the halting
state is below the error tolerance and within the instruction budget — in
particular a pc-sentinel exit with fewer than `eTol` errors and `di ≤ limit`
is a normal exit with `final = pre`.  (The unconditional form of the claim —
that a sentinel exit alone never gains an error — is refuted by
`sentinel_halt_appends_error_limit`.) -/
theorem sentinel_halt_clean (fuel : Nat) :
    ∀ (inst : EmuInstance) (eTol : Int) (limit : Nat) (pre final : EmuInstance),
    runLoop fuel inst eTol limit = LoopResult.halted pre final →
    (pre.errors.length : Int) < eTol → pre.di ≤ limit → final = pre := by
  induction fuel with
  | zero =>
    intro inst eTol limit pre final h
    exact LoopResult.noConfusion h
  | succ fuel ih =>
    intro inst eTol limit pre final h hlt hdi
    unfold runLoop at h
    split at h
    · injection h with h1 h2
      rw [h1] at h2
      rw [← h2]
      unfold finishHalt
      rw [if_neg (by omega), if_neg (by omega)]
    · split at h
      · exact LoopResult.noConfusion h
      · rename_i i1 heq
        exact ih i1 eTol limit pre final h hlt hdi

/-- A page at 0x2000 holding the single instruction `jr $31`: with the seeded
return address 0xFFFFFFFF this is the canonical clean exit. -/
def progPageW : MemoryPage :=
  { startAddr := 0x2000,
    memory := (Array.mkArray 1024 0).setD 0 0x03E00008,
    initialized := (Array.mkArray 32 0).setD 0 1 }

def memW : SystemMemory := fun k => if k = 2 then some progPageW else Option.none

def preW : EmuInstance :=
  match runLoop 3 (initInstance 0x2000 memW 10 zeroRng) 5 10 with
  | LoopResult.halted p _ => p
  | _ => initInstance 0 emptyMem 0 zeroRng

def finalW : EmuInstance :=
  match runLoop 3 (initInstance 0x2000 memW 10 zeroRng) 5 10 with
  | LoopResult.halted _ f => f
  | _ => initInstance 0 emptyMem 0 zeroRng

set_option maxRecDepth 100000 in
theorem sentinel_halt_clean_witness :
    preW.pc = 0xFFFFFFFF ∧ (preW.errors.length : Int) < 5 ∧ preW.di ≤ 10 ∧
      finalW = preW :=
  ⟨rfl, by decide, by decide,
    sentinel_halt_clean 3 (initInstance 0x2000 memW 10 zeroRng) 5 10 preW finalW
      rfl (by decide) (by decide)⟩
